import Mathlib

/-! Chirpstack ADR algorithms: a shallow embedding.

Two JavaScript ADR plug-ins are embedded here:

* `src/v4/default-custom.js`      (namespace `DefaultCustom`)
* `src/v4/alitecs-rn2483-adr.js`  (namespace `AlitecsRn2483Adr`)

Conventions of the embedding.

* Integer-valued request fields (`dr`, `txPowerIndex`, `nbTrans`, the ceilings,
  frame counters) are `Int`.
* A JavaScript number that is not an integer field (the SNR fields, the SNR
  margin, the loss percentage) is the exact rational value of its double.  The
  two subtractions and the division that give the step count round their
  exact result to binary64 (`binary64`), as the source does; a result of
  magnitude `2^1024` or more (JavaScript `Infinity`) is outside the embedding.
  The quotient and product of the loss estimator are kept exact.
* `default-custom.js` mutates the request object it is given (`req.dr++`,
  `req.txPowerIndex++`, `req.txPowerIndex--`), so its functions return the
  request as it stands after the call next to their JavaScript result.
* A field that may be absent (`req.maxRr`) is an `Option`; `none` is
  JavaScript `undefined`.
* `region` is a global that the alitecs file uses but does not declare; it is
  a parameter of `AlitecsRn2483Adr.handle`.
-/

set_option autoImplicit false

/-- JavaScript `Math.trunc` on an exact rational: the integer part, the
fractional digits removed (rounding toward zero). -/
def Math_trunc (x : ℚ) : Int :=
  Int.tdiv x.num (x.den : Int)

/-- Rounding of a rational to the nearest integer, a tie going to the even
one. -/
def roundHalfEven (t : ℚ) : Int :=
  let f : Int := ⌊t⌋
  if t - f < 1 / 2 then f
  else if t - f > 1 / 2 then f + 1
  else if f % 2 = 0 then f else f + 1

/-- IEEE 754 binary64 rounding (to nearest, ties to even) of the exact result
`x` of an arithmetic operation: the double JavaScript stores for it.  With
`2^e ≤ |x| < 2^(e+1)` the doubles around `x` are the multiples of `2^(e-52)`,
and of `2^(-1074)` in the subnormal range. -/
def binary64 (x : ℚ) : ℚ :=
  if x = 0 then 0
  else
    let e : Int := Int.log 2 |x|
    let q : Int := max (e - 52) (-1074)
    (roundHalfEven (x / 2 ^ q) : ℚ) * 2 ^ q

/-- JavaScript `a > b` for a number `a` and a possibly `undefined` number `b`:
a comparison with `undefined` is `false`. -/
def jsGt (a : Int) (b : Option Int) : Bool :=
  match b with
  | some b => decide (a > b)
  | none => false

/-- JavaScript `a < b` for a number `a` and a possibly `undefined` number `b`:
a comparison with `undefined` is `false`. -/
def jsLt (a : Int) (b : Option Int) : Bool :=
  match b with
  | some b => decide (a < b)
  | none => false

namespace DefaultCustom

/-- One element of `req.uplinkHistory` (the fields the algorithm reads). -/
structure UplinkHistory where
  fCnt : Int
  maxSnr : ℚ
  txPowerIndex : Int
  deriving DecidableEq, Repr

/-- The request object handed to `handle` (the fields the algorithm reads, and
`maxRr`, which the code reads as a fallback of `maxDr`). -/
structure AdrRequest where
  adr : Bool
  dr : Int
  txPowerIndex : Int
  nbTrans : Int
  maxTxPowerIndex : Int
  requiredSnrForDr : ℚ
  installationMargin : ℚ
  maxDr : Int
  maxRr : Option Int
  uplinkHistory : List UplinkHistory
  deriving DecidableEq, Repr

/-- The response object built by `handle`. -/
structure AdrResponse where
  dr : Int
  txPowerIndex : Int
  nbTrans : Int
  deriving DecidableEq, Repr

/-- The object `{txPowerIndex, dr}` returned by `getIdealTxPowerIndexAndDR`. -/
structure IdealValues where
  txPowerIndex : Int
  dr : Int
  deriving DecidableEq, Repr

/-- The expression `(req.maxDr || req.maxRr)`: `req.maxDr` unless it is falsy
(zero), in which case `req.maxRr`, whatever it is. -/
def maxDrOrMaxRr (req : AdrRequest) : Option Int :=
  if req.maxDr ≠ 0 then some req.maxDr else req.maxRr

def requiredHistoryCount : Nat := 20

def getMaxSNR (req : AdrRequest) : ℚ :=
  req.uplinkHistory.foldl (fun snrM uh => if uh.maxSnr > snrM then uh.maxSnr else snrM) (-999)

/-- The history count with equal TxPowerIndex. -/
def getHistoryCount (req : AdrRequest) : Nat :=
  (req.uplinkHistory.filter (fun x => decide (x.txPowerIndex = req.txPowerIndex))).length

/-- The recursive search.  It works on the request object itself; the second
component is the request as the search leaves it. -/
def getIdealTxPowerIndexAndDR (nStep : Int) (req : AdrRequest) : IdealValues × AdrRequest :=
  if nStep = 0 then
    ({ txPowerIndex := req.txPowerIndex, dr := req.dr }, req)
  else if nStep > 0 then
    if jsLt req.dr (maxDrOrMaxRr req) then
      getIdealTxPowerIndexAndDR (nStep - 1) { req with dr := req.dr + 1 }
    else if req.txPowerIndex < req.maxTxPowerIndex then
      getIdealTxPowerIndexAndDR (nStep - 1) { req with txPowerIndex := req.txPowerIndex + 1 }
    else
      getIdealTxPowerIndexAndDR (nStep - 1) req
  else
    if req.txPowerIndex > 0 then
      getIdealTxPowerIndexAndDR (nStep + 1) { req with txPowerIndex := req.txPowerIndex - 1 }
    else
      getIdealTxPowerIndexAndDR (nStep + 1) req
termination_by nStep.natAbs
decreasing_by all_goals omega

def pktLossRateTable : List (List Int) := [[1, 1, 2], [1, 2, 3], [2, 3, 3], [3, 3, 3]]

/-- The table access `pktLossRateTable[row][idx]`.  After the clamp `idx` is
0, 1 or 2 and `row` is 0..3, so every access made by `getNbTrans` is inside the
table; an access outside it (JavaScript `undefined`) is 0 here. -/
def tableAt (table : List (List Int)) (row : Nat) (idx : Int) : Int :=
  (table.getD row []).getD idx.toNat 0

def getNbTrans (currentNbTrans : Int) (pktLossRate : ℚ) : Int :=
  let currentNbTrans := if currentNbTrans < 1 then 1 else currentNbTrans
  let currentNbTrans := if currentNbTrans > 3 then 3 else currentNbTrans
  if pktLossRate < 5 then
    tableAt pktLossRateTable 0 (currentNbTrans - 1)
  else if pktLossRate < 10 then
    tableAt pktLossRateTable 1 (currentNbTrans - 1)
  else if pktLossRate < 30 then
    tableAt pktLossRateTable 2 (currentNbTrans - 1)
  else
    tableAt pktLossRateTable 3 (currentNbTrans - 1)

/-- The loop state of `getPacketLossPercentage`. -/
structure LossLoop where
  lostPackets : Int
  previousFCnt : Int
  first : Bool
  deriving DecidableEq, Repr

/-- One iteration of the `for (const uh of req.uplinkHistory)` loop. -/
def lossLoopBody (s : LossLoop) (uh : UplinkHistory) : LossLoop :=
  if s.first then
    { s with previousFCnt := uh.fCnt, first := false }
  else
    { s with lostPackets := s.lostPackets + (uh.fCnt - s.previousFCnt - 1),
             previousFCnt := uh.fCnt }

def getPacketLossPercentage (req : AdrRequest) : ℚ :=
  if req.uplinkHistory.length < requiredHistoryCount then
    0
  else
    let s := req.uplinkHistory.foldl lossLoopBody
      { lostPackets := 0, previousFCnt := 0, first := true }
    (s.lostPackets : ℚ) / (req.uplinkHistory.length : ℚ) * 100

/-- The SNR margin computed in `handle` (lines 67-68): two binary64
subtractions, left to right. -/
def snrMarginOf (req : AdrRequest) : ℚ :=
  let snrM := getMaxSNR req
  binary64 (binary64 (snrM - req.requiredSnrForDr) - req.installationMargin)

/-- The step count computed in `handle` (line 69): `Math.trunc` of the
binary64 quotient. -/
def nStepOf (req : AdrRequest) : Int :=
  let snrMargin := snrMarginOf req
  Math_trunc (binary64 (snrMargin / 3))

/-- The request handler.  The first component is the returned response, the
second is the request object as it stands when `handle` returns. -/
def handle (req : AdrRequest) : AdrResponse × AdrRequest :=
  let resp : AdrResponse :=
    { dr := req.dr, txPowerIndex := req.txPowerIndex, nbTrans := req.nbTrans }
  if !req.adr then
    (resp, req)
  else
    let resp :=
      if jsGt resp.dr (maxDrOrMaxRr req) then
        match maxDrOrMaxRr req with
        | some m => { resp with dr := m }
        | none => resp
      else resp
    let resp := { resp with nbTrans := getNbTrans req.nbTrans (getPacketLossPercentage req) }
    let nStep := nStepOf req
    if nStep < 0 ∧ getHistoryCount req < requiredHistoryCount then
      (resp, req)
    else
      let r := getIdealTxPowerIndexAndDR nStep req
      ({ resp with txPowerIndex := r.1.txPowerIndex, dr := r.1.dr }, r.2)

end DefaultCustom

namespace AlitecsRn2483Adr

/-- One element of `req.uplink_history` (the fields the algorithm reads). -/
structure UplinkHistory where
  f_cnt : Int
  max_snr : ℚ
  tx_power_index : Int
  deriving DecidableEq, Repr

/-- The request object handed to `handle`.  `region_config_id` is the key the
region configuration is looked up with. -/
structure AdrRequest where
  region_config_id : String
  adr : Bool
  dr : Int
  tx_power_index : Int
  nb_trans : Int
  max_tx_power_index : Int
  required_snr_for_dr : ℚ
  installation_margin : ℚ
  max_dr : Int
  uplink_history : List UplinkHistory
  deriving DecidableEq, Repr

/-- The response object built by `handle`. -/
structure AdrResponse where
  dr : Int
  tx_power_index : Int
  nb_trans : Int
  deriving DecidableEq, Repr

/-- What `region_conf.get_data_rate(dr)` returns (the fields the filter reads). -/
structure DataRate where
  modulation : String
  bandwidth : Nat
  deriving DecidableEq, Repr

/-- A region configuration: the enabled uplink data-rate indices and the
data-rate table.  The file uses it through `get_enabled_uplink_data_rates()` and
`get_data_rate(dr)` and does not declare it. -/
structure RegionConf where
  get_enabled_uplink_data_rates : List Nat
  get_data_rate : Nat → DataRate

/-- The global `region`: `region.get(id)` finds a configuration or fails. -/
abbrev Region := String → Option RegionConf

/-- The max LoRa (125 kHz) data-rate of a region configuration
(`handle`, lines 28-37). -/
def max_lora_dr (region_conf : RegionConf) : Nat :=
  (region_conf.get_enabled_uplink_data_rates.filter (fun dr =>
      let dataRate := region_conf.get_data_rate dr
      if dataRate.modulation = "Lora" then decide (dataRate.bandwidth = 125000) else false)).foldl
    (fun max dr => Nat.max max dr) 0

def get_ideal_tx_power_index_and_dr (nb_step tx_power_index dr max_tx_power_index max_dr : Int) :
    Int × Int :=
  if nb_step = 0 then
    (tx_power_index, dr)
  else if nb_step > 0 then
    if dr < max_dr then
      get_ideal_tx_power_index_and_dr (nb_step - 1) tx_power_index (dr + 1) max_tx_power_index max_dr
    else if tx_power_index < max_tx_power_index then
      get_ideal_tx_power_index_and_dr (nb_step - 1) (tx_power_index + 1) dr max_tx_power_index max_dr
    else
      get_ideal_tx_power_index_and_dr (nb_step - 1) tx_power_index dr max_tx_power_index max_dr
  else
    if tx_power_index > 1 then
      get_ideal_tx_power_index_and_dr (nb_step + 1) (tx_power_index - 1) dr max_tx_power_index max_dr
    else if tx_power_index = 1 then
      get_ideal_tx_power_index_and_dr (nb_step + 1) tx_power_index (dr - 1) max_tx_power_index max_dr
    else
      get_ideal_tx_power_index_and_dr (nb_step + 1) tx_power_index dr max_tx_power_index max_dr
termination_by nb_step.natAbs
decreasing_by all_goals omega

def required_history_count : Nat := 20

def get_history_count (req : AdrRequest) : Nat :=
  (req.uplink_history.filter (fun x => decide (x.tx_power_index = req.tx_power_index))).length

def get_max_snr (req : AdrRequest) : ℚ :=
  req.uplink_history.foldl (fun max_snr uh => if uh.max_snr > max_snr then uh.max_snr else max_snr)
    (-999)

def pkt_loss_table : List (List Int) := [[1, 1, 2], [1, 2, 3], [2, 3, 3], [3, 3, 3]]

/-- The table access `pkt_loss_table[row][nb_trans_index]`.  After the clamp
the index is 0, 1 or 2 and `row` is 0..3, so every access made by
`get_nb_trans` is inside the table; an access outside it (JavaScript
`undefined`) is 0 here. -/
def tableAt (table : List (List Int)) (row : Nat) (idx : Int) : Int :=
  (table.getD row []).getD idx.toNat 0

def get_nb_trans (current_nb_trans : Int) (pkt_loss_rate : ℚ) : Int :=
  let current_nb_trans := if current_nb_trans < 1 then 1 else current_nb_trans
  let current_nb_trans := if current_nb_trans > 3 then 3 else current_nb_trans
  let nb_trans_index := current_nb_trans - 1
  if pkt_loss_rate < 5 then
    tableAt pkt_loss_table 0 nb_trans_index
  else if pkt_loss_rate < 10 then
    tableAt pkt_loss_table 1 nb_trans_index
  else if pkt_loss_rate < 30 then
    tableAt pkt_loss_table 2 nb_trans_index
  else
    tableAt pkt_loss_table 3 nb_trans_index

/-- The loop state of `get_packet_loss_percentage`: the index `i` and the two
accumulators. -/
structure LossLoop where
  i : Nat
  lost_packets : Int
  previous_f_cnt : Int
  deriving DecidableEq, Repr

/-- One iteration of the `for (let i = 0; ...; i++)` loop on the element `h`
found at index `s.i`. -/
def lossLoopBody (s : LossLoop) (h : UplinkHistory) : LossLoop :=
  if s.i = 0 then
    { s with i := s.i + 1, previous_f_cnt := h.f_cnt }
  else
    { i := s.i + 1,
      lost_packets := s.lost_packets + (h.f_cnt - s.previous_f_cnt - 1),
      previous_f_cnt := h.f_cnt }

def get_packet_loss_percentage (req : AdrRequest) : ℚ :=
  if req.uplink_history.length < required_history_count then
    0
  else
    let s := req.uplink_history.foldl lossLoopBody { i := 0, lost_packets := 0, previous_f_cnt := 0 }
    ((s.lost_packets : ℚ) / (req.uplink_history.length : ℚ)) * 100

/-- The SNR margin computed in `handle` (lines 53-54): two binary64
subtractions, left to right. -/
def snr_margin_of (req : AdrRequest) : ℚ :=
  let snr_max := get_max_snr req
  binary64 (binary64 (snr_max - req.required_snr_for_dr) - req.installation_margin)

/-- The step count computed in `handle` (line 55): `Math.trunc` of the
binary64 quotient. -/
def n_step_of (req : AdrRequest) : Int :=
  let snr_margin := snr_margin_of req
  Math_trunc (binary64 (snr_margin / 3))

/-- The request handler.  `none` is the failure of the region lookup
(`region.get(...)` of an unknown `region_config_id`). -/
def handle (region : Region) (req : AdrRequest) : Option AdrResponse :=
  let resp : AdrResponse :=
    { dr := req.dr, tx_power_index := req.tx_power_index, nb_trans := req.nb_trans }
  if !req.adr then
    some resp
  else
    match region req.region_config_id with
    | none => none
    | some region_conf =>
      let max_dr := req.max_dr
      let max_lora_dr : Int := max_lora_dr region_conf
      let max_dr := if max_dr > max_lora_dr then max_lora_dr else max_dr
      let resp := if req.dr > max_dr then { resp with dr := max_dr } else resp
      let resp :=
        { resp with nb_trans := get_nb_trans req.nb_trans (get_packet_loss_percentage req) }
      let n_step := n_step_of req
      if n_step < 0 ∧ get_history_count req ≠ required_history_count then
        some resp
      else
        let r := get_ideal_tx_power_index_and_dr n_step resp.tx_power_index resp.dr
          req.max_tx_power_index max_dr
        some { resp with dr := r.2, tx_power_index := r.1 }

end AlitecsRn2483Adr

/-! ## The search, one iteration at a time -/

namespace AlitecsRn2483Adr

/-- The variables `nb_step`, `tx_power_index` and `dr` of one call of
`get_ideal_tx_power_index_and_dr`. -/
structure SearchState where
  nb_step : Int
  tx_power_index : Int
  dr : Int
  deriving DecidableEq, Repr

/-- One iteration of the search: the body of `get_ideal_tx_power_index_and_dr`
past the `nb_step === 0` test (lines 89-109), giving the values handed to the
recursive call. -/
def search_iteration (max_tx_power_index max_dr : Int) (s : SearchState) : SearchState :=
  if s.nb_step > 0 then
    if s.dr < max_dr then
      { s with dr := s.dr + 1, nb_step := s.nb_step - 1 }
    else if s.tx_power_index < max_tx_power_index then
      { s with tx_power_index := s.tx_power_index + 1, nb_step := s.nb_step - 1 }
    else
      { s with nb_step := s.nb_step - 1 }
  else
    if s.tx_power_index > 1 then
      { s with tx_power_index := s.tx_power_index - 1, nb_step := s.nb_step + 1 }
    else if s.tx_power_index = 1 then
      { s with dr := s.dr - 1, nb_step := s.nb_step + 1 }
    else
      { s with nb_step := s.nb_step + 1 }

end AlitecsRn2483Adr

namespace DefaultCustom

/-- One iteration of the search: the body of `getIdealTxPowerIndexAndDR` past
the `nStep === 0` test (lines 115-130), giving the step count and the request
object handed to the recursive call. -/
def searchIteration (s : Int × AdrRequest) : Int × AdrRequest :=
  if s.1 > 0 then
    if jsLt s.2.dr (maxDrOrMaxRr s.2) then
      (s.1 - 1, { s.2 with dr := s.2.dr + 1 })
    else if s.2.txPowerIndex < s.2.maxTxPowerIndex then
      (s.1 - 1, { s.2 with txPowerIndex := s.2.txPowerIndex + 1 })
    else
      (s.1 - 1, s.2)
  else
    if s.2.txPowerIndex > 0 then
      (s.1 + 1, { s.2 with txPowerIndex := s.2.txPowerIndex - 1 })
    else
      (s.1 + 1, s.2)

end DefaultCustom

/-! ## The redundancy selector as the specification words it -/

/-- The table `T` of the redundancy selector, one row per loss bucket. -/
def specNbTransTable : List (List Int) := [[1, 1, 2], [1, 2, 3], [2, 3, 3], [3, 3, 3]]

/-- The loss bucket `b` of a loss percentage `p`: 0 if `p < 5`, 1 if
`5 ≤ p < 10`, 2 if `10 ≤ p < 30`, 3 if `p ≥ 30`. -/
def specLossBucket (p : ℚ) : Nat :=
  if p < 5 then 0
  else if 5 ≤ p ∧ p < 10 then 1
  else if 10 ≤ p ∧ p < 30 then 2
  else 3

/-- The current `nbTrans` clamped to `[1, 3]`. -/
def specClampNbTrans (nbTrans : Int) : Int :=
  max 1 (min nbTrans 3)

/-- The table lookup `T[b][c - 1]`. -/
def specNbTrans (nbTrans : Int) (p : ℚ) : Int :=
  (specNbTransTable.getD (specLossBucket p) []).getD (specClampNbTrans nbTrans - 1).toNat 0

/-! ## The loss estimator as the specification words it -/

/-- The lost packets of a history of frame counters `f_0 .. f_{n-1}`: the sum
over `i` from 1 to `n - 1` of `f_i - f_{i-1} - 1`. -/
def specLostPackets (f : List Int) : Int :=
  ∑ i in Finset.Ico 1 f.length, (f.getD i 0 - f.getD (i - 1) 0 - 1)

/-- What the loss estimator is to return on a history of frame counters `f`
for the loss `loss`: 0 under 20 entries; from 20 entries on the lost packets
over the length times 100, hence 0 on consecutive counters and
`(G - 1) / n * 100` when every delta is 1 except one delta `G`. -/
def LossEstimatorContract (f : List Int) (loss : ℚ) : Prop :=
  (f.length < 20 → loss = 0) ∧
  (20 ≤ f.length → loss = (specLostPackets f : ℚ) / (f.length : ℚ) * 100) ∧
  (20 ≤ f.length → (∀ i, 1 ≤ i → i < f.length → f.getD i 0 = f.getD (i - 1) 0 + 1) →
    loss = 0) ∧
  (20 ≤ f.length → ∀ (k : Nat) (G : Int), 1 ≤ k → k < f.length →
    f.getD k 0 - f.getD (k - 1) 0 = G →
    (∀ i, 1 ≤ i → i < f.length → i ≠ k → f.getD i 0 - f.getD (i - 1) 0 = 1) →
    loss = ((G : ℚ) - 1) / (f.length : ℚ) * 100)

/-- The lost packets counted by the loop once a previous frame counter is
known: each further counter `x` adds `x - prev - 1`. -/
def lostFrom (prev : Int) : List Int → Int
  | [] => 0
  | x :: xs => (x - prev - 1) + lostFrom x xs

/-- The range of the loss estimate on a history of frame counters `f` of
length `n`: it is not negative, and it is at most 100 exactly when the
estimator returns its short-history 0 or the lost packets
`f_{n-1} - f_0 - (n - 1)` are at most `n`. -/
def LossEstimateRange (f : List Int) (loss : ℚ) : Prop :=
  0 ≤ loss ∧
  (20 ≤ f.length →
    loss = ((f.getD (f.length - 1) 0 - f.getD 0 0 - ((f.length : Int) - 1) : Int) : ℚ)
      / (f.length : ℚ) * 100) ∧
  (loss ≤ 100 ↔
    f.length < 20 ∨ f.getD (f.length - 1) 0 - f.getD 0 0 - ((f.length : Int) - 1) ≤ f.length)

/-! ## The step calculator as the specification words it -/

/-- The integer `step` is `margin / 3` truncated toward zero: for a margin
that is not negative `3 * step ≤ margin < 3 * step + 3`, for a negative one
`3 * step - 3 < margin ≤ 3 * step`, and `step` is the only such integer; so
`|3 * step| ≤ |margin|` and `step` is 0 or has the sign of the margin. -/
def TruncatedThird (margin : ℚ) (step : Int) : Prop :=
  (0 ≤ margin → 3 * (step : ℚ) ≤ margin ∧ margin < 3 * (step : ℚ) + 3) ∧
  (margin < 0 → 3 * (step : ℚ) - 3 < margin ∧ margin ≤ 3 * (step : ℚ)) ∧
  (∀ k : Int,
    (0 ≤ margin → 3 * (k : ℚ) ≤ margin ∧ margin < 3 * (k : ℚ) + 3) →
    (margin < 0 → 3 * (k : ℚ) - 3 < margin ∧ margin ≤ 3 * (k : ℚ)) → k = step) ∧
  |3 * (step : ℚ)| ≤ |margin| ∧
  (0 < step → 0 < margin) ∧ (step < 0 → margin < 0)

/-! ## The region data-rate resolver as the specification words it -/

/-- The data rate `dr` of the region configuration is a LoRa data rate of
125 kHz bandwidth. -/
def AlitecsRn2483Adr.IsLora125 (region_conf : AlitecsRn2483Adr.RegionConf) (dr : Nat) : Prop :=
  (region_conf.get_data_rate dr).modulation = "Lora" ∧
    (region_conf.get_data_rate dr).bandwidth = 125000

/-- The response of the alitecs handler (ADR enabled) when the ceiling used
for the DR clamp and for the parameter search is `ceiling`. -/
def AlitecsRn2483Adr.responseUnderCeiling (req : AlitecsRn2483Adr.AdrRequest) (ceiling : Int) :
    AlitecsRn2483Adr.AdrResponse :=
  let clamped := if req.dr > ceiling then ceiling else req.dr
  let nb_trans := AlitecsRn2483Adr.get_nb_trans req.nb_trans
    (AlitecsRn2483Adr.get_packet_loss_percentage req)
  if AlitecsRn2483Adr.n_step_of req < 0 ∧
      AlitecsRn2483Adr.get_history_count req ≠ AlitecsRn2483Adr.required_history_count then
    { dr := clamped, tx_power_index := req.tx_power_index, nb_trans := nb_trans }
  else
    let r := AlitecsRn2483Adr.get_ideal_tx_power_index_and_dr (AlitecsRn2483Adr.n_step_of req)
      req.tx_power_index clamped req.max_tx_power_index ceiling
    { dr := r.2, tx_power_index := r.1, nb_trans := nb_trans }

/-! ## The DR clamp of `default-custom.js` -/

/-- The DR clamp at the head of `handle` in `default-custom.js`: `dr` lowered
to the ceiling `req.maxDr || req.maxRr` when it exceeds it, and left as it is
when it does not or when the ceiling is `undefined`. -/
def DefaultCustom.clampedDr (req : DefaultCustom.AdrRequest) : Int :=
  match DefaultCustom.maxDrOrMaxRr req with
  | some m => if req.dr > m then m else req.dr
  | none => req.dr

/-! ## The walk of the step count as the specification words it -/

/-- The remaining step count `count k` after `k` iterations of a search
started on `n`: each iteration moves it one unit toward zero without changing
its sign, it is not 0 before `|n|` iterations and it is 0 after exactly `|n|`. -/
def StepCountWalk (n : Int) (count : Nat → Int) : Prop :=
  (∀ k, k ≤ n.natAbs → (0 ≤ n → count k = n - k) ∧ (n ≤ 0 → count k = n + k)) ∧
  (∀ k, k < n.natAbs → count k ≠ 0) ∧
  count n.natAbs = 0

/-! ## SNR values on the 0.25 dB grid -/

/-- The rational `x` is a multiple of 0.25 of magnitude at most `2^38`
(`n / 4` with `|n| ≤ 2^40`): the values LoRa SNR reports, the required SNR
table and the installation margin take in practice. -/
def OnQuarterGrid (x : ℚ) : Prop :=
  ∃ n : Int, x = (n : ℚ) / 4 ∧ |n| ≤ 2 ^ 40

/-- The value `m` is `snrMax` for the SNR values `l` of a history: the greatest
of -999 and the elements of `l`. -/
def IsSnrMax (l : List ℚ) (m : ℚ) : Prop :=
  -999 ≤ m ∧ (∀ x ∈ l, x ≤ m) ∧ (m = -999 ∨ m ∈ l)

/-! ## Requests used as concrete inputs -/

/-- The request of the doc comment of `handle` in `default-custom.js`. -/
def DefaultCustom.docRequest : DefaultCustom.AdrRequest :=
  { adr := true, dr := 1, txPowerIndex := 0, nbTrans := 1, maxTxPowerIndex := 15,
    requiredSnrForDr := -17.5, installationMargin := 10, maxDr := 5, maxRr := none,
    uplinkHistory := [{ fCnt := 10, maxSnr := 7.5, txPowerIndex := 0 }] }

/-- A region whose enabled uplink data rates are 0..7: 0..5 are LoRa 125 kHz,
6 is LoRa 250 kHz and 7 is FSK. -/
def AlitecsRn2483Adr.eu868 : AlitecsRn2483Adr.RegionConf :=
  { get_enabled_uplink_data_rates := [0, 1, 2, 3, 4, 5, 6, 7],
    get_data_rate := fun dr =>
      if dr ≤ 5 then { modulation := "Lora", bandwidth := 125000 }
      else if dr = 6 then { modulation := "Lora", bandwidth := 250000 }
      else { modulation := "Fsk", bandwidth := 0 } }

/-- A region table that knows `"eu868"` only. -/
def AlitecsRn2483Adr.regions : AlitecsRn2483Adr.Region :=
  fun id => if id = "eu868" then some AlitecsRn2483Adr.eu868 else none

/-- The request of the doc comment, in the field names of the alitecs file. -/
def AlitecsRn2483Adr.docRequest : AlitecsRn2483Adr.AdrRequest :=
  { region_config_id := "eu868", adr := true, dr := 1, tx_power_index := 0, nb_trans := 1,
    max_tx_power_index := 15, required_snr_for_dr := -17.5, installation_margin := 10,
    max_dr := 5, uplink_history := [{ f_cnt := 10, max_snr := 7.5, tx_power_index := 0 }] }

/-- The doc-comment request with the device reporting `dr = 7` above
`maxDr = 5`. -/
def DefaultCustom.overMaxDrRequest : DefaultCustom.AdrRequest :=
  { DefaultCustom.docRequest with dr := 7 }

/-- The doc-comment request with `txPowerIndex = 9` above
`maxTxPowerIndex = 5`. -/
def DefaultCustom.overMaxTxPowerRequest : DefaultCustom.AdrRequest :=
  { DefaultCustom.docRequest with txPowerIndex := 9, maxTxPowerIndex := 5 }

/-- The alitecs request with `tx_power_index = 9` above
`max_tx_power_index = 5`. -/
def AlitecsRn2483Adr.overMaxTxPowerRequest : AlitecsRn2483Adr.AdrRequest :=
  { AlitecsRn2483Adr.docRequest with tx_power_index := 9, max_tx_power_index := 5 }

/-- A history entry of `default-custom.js` with the frame counter `c`. -/
def DefaultCustom.uplinkAt (c : Int) : DefaultCustom.UplinkHistory :=
  { fCnt := c, maxSnr := 7.5, txPowerIndex := 0 }

/-- A history entry of `alitecs-rn2483-adr.js` with the frame counter `c`. -/
def AlitecsRn2483Adr.uplinkAt (c : Int) : AlitecsRn2483Adr.UplinkHistory :=
  { f_cnt := c, max_snr := 7.5, tx_power_index := 0 }

/-- Twenty frame counters, consecutive but for one delta of 4 (10 to 14). -/
def oneGapCounters : List Int :=
  [1, 2, 3, 4, 5, 6, 7, 8, 9, 10, 14, 15, 16, 17, 18, 19, 20, 21, 22, 23]

/-- Twenty strictly increasing frame counters, every delta being 3. -/
def sparseCounters : List Int :=
  [0, 3, 6, 9, 12, 15, 18, 21, 24, 27, 30, 33, 36, 39, 42, 45, 48, 51, 54, 57]

/-- The doc-comment request with the history `oneGapCounters`. -/
def DefaultCustom.oneGapRequest : DefaultCustom.AdrRequest :=
  { DefaultCustom.docRequest with uplinkHistory := oneGapCounters.map DefaultCustom.uplinkAt }

/-- The alitecs request with the history `oneGapCounters`. -/
def AlitecsRn2483Adr.oneGapRequest : AlitecsRn2483Adr.AdrRequest :=
  { AlitecsRn2483Adr.docRequest with
      uplink_history := oneGapCounters.map AlitecsRn2483Adr.uplinkAt }

/-- The doc-comment request with the history `sparseCounters`. -/
def DefaultCustom.sparseRequest : DefaultCustom.AdrRequest :=
  { DefaultCustom.docRequest with uplinkHistory := sparseCounters.map DefaultCustom.uplinkAt }

/-- The alitecs request with the history `sparseCounters`. -/
def AlitecsRn2483Adr.sparseRequest : AlitecsRn2483Adr.AdrRequest :=
  { AlitecsRn2483Adr.docRequest with
      uplink_history := sparseCounters.map AlitecsRn2483Adr.uplinkAt }

/-- A request with `snrMax = 10`, `requiredSnrForDr = -5` and
`installationMargin = 10`. -/
def DefaultCustom.marginFiveRequest : DefaultCustom.AdrRequest :=
  { DefaultCustom.docRequest with
      requiredSnrForDr := -5, installationMargin := 10,
      uplinkHistory := [{ fCnt := 10, maxSnr := 10, txPowerIndex := 0 }] }

/-- A request with `snr_max = 10`, `required_snr_for_dr = -5` and
`installation_margin = 10`. -/
def AlitecsRn2483Adr.marginFiveRequest : AlitecsRn2483Adr.AdrRequest :=
  { AlitecsRn2483Adr.docRequest with
      required_snr_for_dr := -5, installation_margin := 10,
      uplink_history := [{ f_cnt := 10, max_snr := 10, tx_power_index := 0 }] }

/-- A request with `snrMax = 0`, `requiredSnrForDr = -5` and
`installationMargin = 10`: the margin is -5. -/
def DefaultCustom.marginMinusFiveRequest : DefaultCustom.AdrRequest :=
  { DefaultCustom.docRequest with
      requiredSnrForDr := -5, installationMargin := 10,
      uplinkHistory := [{ fCnt := 10, maxSnr := 0, txPowerIndex := 0 }] }

/-- A request with `snr_max = 0`, `required_snr_for_dr = -5` and
`installation_margin = 10`: the margin is -5. -/
def AlitecsRn2483Adr.marginMinusFiveRequest : AlitecsRn2483Adr.AdrRequest :=
  { AlitecsRn2483Adr.docRequest with
      required_snr_for_dr := -5, installation_margin := 10,
      uplink_history := [{ f_cnt := 10, max_snr := 0, tx_power_index := 0 }] }

/-- A request with `dr = 3`, `maxDr = 5`, `txPowerIndex = 0` and
`maxTxPowerIndex = 3`. -/
def DefaultCustom.searchUpRequest : DefaultCustom.AdrRequest :=
  { DefaultCustom.docRequest with dr := 3, maxDr := 5, txPowerIndex := 0, maxTxPowerIndex := 3 }

/-- A request with `txPowerIndex = 1` and `dr = 3`. -/
def DefaultCustom.searchDownRequest : DefaultCustom.AdrRequest :=
  { DefaultCustom.docRequest with dr := 3, txPowerIndex := 1 }

/-- A request with `dr = 3` above `maxDr = 0`, no `maxRr` and an empty
history (so `snrMax = -999` and the step is negative). -/
def DefaultCustom.zeroMaxDrRequest : DefaultCustom.AdrRequest :=
  { DefaultCustom.docRequest with dr := 3, maxDr := 0, uplinkHistory := [] }

/-- Twenty consecutive frame counters. -/
def counters20 : List Int :=
  [1, 2, 3, 4, 5, 6, 7, 8, 9, 10, 11, 12, 13, 14, 15, 16, 17, 18, 19, 20]

/-- Twenty-one consecutive frame counters. -/
def counters21 : List Int :=
  [1, 2, 3, 4, 5, 6, 7, 8, 9, 10, 11, 12, 13, 14, 15, 16, 17, 18, 19, 20, 21]

/-- A history entry received at `tx_power_index = 2` with a weak signal
(`max_snr = -20`). -/
def AlitecsRn2483Adr.weakUplinkAt2 (c : Int) : AlitecsRn2483Adr.UplinkHistory :=
  { f_cnt := c, max_snr := -20, tx_power_index := 2 }

/-- A history entry received at `tx_power_index = 1` with a weak signal
(`max_snr = -20`). -/
def AlitecsRn2483Adr.weakUplinkAt1 (c : Int) : AlitecsRn2483Adr.UplinkHistory :=
  { f_cnt := c, max_snr := -20, tx_power_index := 1 }

/-- A request at `tx_power_index = 2`, `dr = 3` whose history holds 21 weak
uplinks, all received at `tx_power_index = 2`. -/
def AlitecsRn2483Adr.longHistoryRequest : AlitecsRn2483Adr.AdrRequest :=
  { AlitecsRn2483Adr.docRequest with
      tx_power_index := 2, dr := 3,
      uplink_history := counters21.map AlitecsRn2483Adr.weakUplinkAt2 }

/-- A request at `tx_power_index = 1`, `dr = 0` whose history holds 20 weak
uplinks, all received at `tx_power_index = 1`. -/
def AlitecsRn2483Adr.lowestDrRequest : AlitecsRn2483Adr.AdrRequest :=
  { AlitecsRn2483Adr.docRequest with
      tx_power_index := 1, dr := 0,
      uplink_history := counters20.map AlitecsRn2483Adr.weakUplinkAt1 }

/-- The double nearest to -3.6. -/
def doubleMinus3p6 : ℚ := -8106479329266893 / 2251799813685248

/-- The double nearest to 1.4. -/
def double1p4 : ℚ := 3152519739159347 / 2251799813685248

/-- A request with `maxSnr: -3.6`, `requiredSnrForDr: -20` and
`installationMargin: 1.4`, the fields holding the doubles of these literals. -/
def DefaultCustom.roundingRequest : DefaultCustom.AdrRequest :=
  { DefaultCustom.docRequest with
      requiredSnrForDr := -20, installationMargin := double1p4,
      uplinkHistory := [{ fCnt := 10, maxSnr := doubleMinus3p6, txPowerIndex := 0 }] }

/-- A request with `max_snr: -3.6`, `required_snr_for_dr: -20` and
`installation_margin: 1.4`, the fields holding the doubles of these literals. -/
def AlitecsRn2483Adr.roundingRequest : AlitecsRn2483Adr.AdrRequest :=
  { AlitecsRn2483Adr.docRequest with
      required_snr_for_dr := -20, installation_margin := double1p4,
      uplink_history := [{ f_cnt := 10, max_snr := doubleMinus3p6, tx_power_index := 0 }] }

/-- The doc-comment request with `dr = 0`, `maxDr = 0` and a field
`maxRr = 5`. -/
def DefaultCustom.maxRrRequest : DefaultCustom.AdrRequest :=
  { DefaultCustom.docRequest with dr := 0, maxDr := 0, maxRr := some 5 }

/-! ## `Math.trunc` -/

theorem Math_trunc_of_nonneg {x : ℚ} (h : 0 ≤ x) : Math_trunc x = ⌊x⌋ := by
  unfold Math_trunc
  rw [Rat.floor_def]
  exact Int.tdiv_eq_ediv (Rat.num_nonneg.mpr h) (Int.ofNat_nonneg _)

theorem Math_trunc_neg (x : ℚ) : Math_trunc (-x) = -Math_trunc x := by
  unfold Math_trunc
  simp

theorem Math_trunc_of_nonpos {x : ℚ} (h : x ≤ 0) : Math_trunc x = ⌈x⌉ := by
  have h1 : Math_trunc x = -Math_trunc (-x) := by rw [Math_trunc_neg]; simp
  rw [h1, Math_trunc_of_nonneg (by linarith), Int.floor_neg, neg_neg]

/-- Evaluation of `Math.trunc` at a non-negative rational. -/
theorem Math_trunc_eq_of_nonneg {x : ℚ} {k : Int} (h0 : 0 ≤ x) (h1 : (k : ℚ) ≤ x)
    (h2 : x < k + 1) : Math_trunc x = k := by
  rw [Math_trunc_of_nonneg h0, Int.floor_eq_iff]
  exact ⟨h1, h2⟩

/-- Evaluation of `Math.trunc` at a non-positive rational. -/
theorem Math_trunc_eq_of_nonpos {x : ℚ} {k : Int} (h0 : x ≤ 0) (h1 : (k : ℚ) - 1 < x)
    (h2 : x ≤ k) : Math_trunc x = k := by
  rw [Math_trunc_of_nonpos h0, Int.ceil_eq_iff]
  exact ⟨h1, h2⟩

/-! ## binary64 rounding -/

theorem roundHalfEven_sub_abs_le (t : ℚ) : |(roundHalfEven t : ℚ) - t| ≤ 1 / 2 := by
  unfold roundHalfEven
  have h1 := Int.floor_le t
  have h2 := Int.lt_floor_add_one t
  simp only
  split_ifs with ha hb hc
  · rw [abs_le]; constructor <;> linarith
  · rw [abs_le]; push_cast; constructor <;> linarith
  · rw [abs_le]; constructor <;> linarith
  · rw [abs_le]; push_cast; constructor <;> linarith

theorem roundHalfEven_eq_of_lt (t : ℚ) (r : Int) (h : |t - r| < 1 / 2) : roundHalfEven t = r := by
  rw [abs_lt] at h
  unfold roundHalfEven
  have h1 := Int.floor_le t
  have h2 := Int.lt_floor_add_one t
  simp only
  have hfl : ⌊t⌋ = r ∨ ⌊t⌋ = r - 1 := by
    have a : (⌊t⌋ : ℚ) < r + 1 := by linarith
    have b : (r : ℚ) - 2 < ⌊t⌋ := by linarith
    have a' : ⌊t⌋ < r + 1 := by exact_mod_cast a
    have b' : r - 2 < ⌊t⌋ := by exact_mod_cast b
    omega
  rcases hfl with hf | hf
  · rw [hf]
    rw [if_pos (by linarith)]
  · rw [hf]
    push_cast
    rw [if_neg (by linarith), if_pos (by linarith)]
    ring

theorem roundHalfEven_intCast (n : Int) : roundHalfEven (n : ℚ) = n :=
  roundHalfEven_eq_of_lt _ _ (by simp)

theorem two_zpow_log_le_abs {x : ℚ} (hx : x ≠ 0) : (2 : ℚ) ^ Int.log 2 |x| ≤ |x| := by
  have h := Int.zpow_log_le_self (b := 2) (r := |x|) (by norm_num) (abs_pos.mpr hx)
  simpa using h

theorem abs_lt_two_zpow_log_succ (x : ℚ) : |x| < (2 : ℚ) ^ (Int.log 2 |x| + 1) := by
  have h := Int.lt_zpow_succ_log_self (b := 2) (by norm_num) |x|
  simpa using h

theorem log_two_abs_eq {x : ℚ} {e : Int} (hx : x ≠ 0) (h1 : (2 : ℚ) ^ e ≤ |x|)
    (h2 : |x| < (2 : ℚ) ^ (e + 1)) : Int.log 2 |x| = e := by
  have hpos : (0 : ℚ) < |x| := abs_pos.mpr hx
  have a : e ≤ Int.log 2 |x| := by
    rw [← Int.zpow_le_iff_le_log (by norm_num) hpos]
    simpa using h1
  have b : Int.log 2 |x| < e + 1 := by
    rw [← Int.lt_zpow_iff_log_lt (by norm_num) hpos]
    simpa using h2
  omega

theorem binary64_zero : binary64 0 = 0 := by
  simp [binary64]

/-- Evaluation of `binary64` at a rational of the normal range. -/
theorem binary64_eval {x : ℚ} (e r : Int) (hx : x ≠ 0) (h1 : (2 : ℚ) ^ e ≤ |x|)
    (h2 : |x| < (2 : ℚ) ^ (e + 1)) (hq : -1074 ≤ e - 52)
    (hr : |x / 2 ^ (e - 52) - r| < 1 / 2) : binary64 x = r * 2 ^ (e - 52) := by
  unfold binary64
  simp only [hx, if_false, log_two_abs_eq hx h1 h2, max_eq_left hq]
  rw [roundHalfEven_eq_of_lt _ r hr]

theorem binary64_dyadic (n : Int) (j : Nat) (hn : |n| < 2 ^ 53) (hj : j ≤ 1074) :
    binary64 ((n : ℚ) / 2 ^ j) = (n : ℚ) / 2 ^ j := by
  by_cases h0 : n = 0
  · simp [h0, binary64_zero]
  have hx : (n : ℚ) / 2 ^ j ≠ 0 := by
    apply div_ne_zero
    · exact_mod_cast h0
    · positivity
  have hlog := two_zpow_log_le_abs hx
  set e := Int.log 2 |(n : ℚ) / 2 ^ j| with he
  have habs : |(n : ℚ) / 2 ^ j| < (2 : ℚ) ^ ((53 : Int) - j) := by
    rw [abs_div, abs_of_pos (by positivity : (0 : ℚ) < 2 ^ j), zpow_sub₀ (by norm_num)]
    have hn' : |(n : ℚ)| < 2 ^ 53 := by exact_mod_cast hn
    have : ((2 : ℚ) ^ (53 : Int)) = 2 ^ 53 := by norm_num
    rw [this, zpow_natCast]
    exact div_lt_div_of_pos_right hn' (by positivity)
  have hlt : e < 53 - j := by
    have := lt_of_le_of_lt hlog habs
    exact (zpow_lt_zpow_iff_right₀ (by norm_num)).mp this
  have hq : max (e - 52) (-1074) ≤ -(j : Int) := by
    apply max_le <;> omega
  unfold binary64
  simp only [hx, if_false, ← he]
  set q := max (e - 52) (-1074) with hqdef
  obtain ⟨k, hk⟩ : ∃ k : Nat, (k : Int) = -(j : Int) - q := ⟨(-(j : Int) - q).toNat, by omega⟩
  have hscaled : (n : ℚ) / 2 ^ j / 2 ^ q = ((n * 2 ^ k : Int) : ℚ) := by
    push_cast
    rw [← zpow_natCast (2 : ℚ) k, hk, zpow_sub₀ (by norm_num), zpow_neg, zpow_natCast]
    field_simp
  rw [hscaled, roundHalfEven_intCast, ← hscaled]
  field_simp
  ring

theorem binary64_abs_sub_le {x : ℚ} (hx : (2 : ℚ) ^ (-1022 : Int) ≤ |x|) :
    |binary64 x - x| ≤ |x| / 2 ^ 53 := by
  have hx0 : x ≠ 0 := by
    intro h
    rw [h, abs_zero] at hx
    have : (0 : ℚ) < 2 ^ (-1022 : Int) := by positivity
    linarith
  have hlog := two_zpow_log_le_abs hx0
  have he : (-1022 : Int) ≤ Int.log 2 |x| := by
    rw [← Int.zpow_le_iff_le_log (by norm_num) (abs_pos.mpr hx0)]
    simpa using hx
  unfold binary64
  simp only [hx0, if_false]
  set e := Int.log 2 |x| with hedef
  rw [max_eq_left (by omega : (-1074 : Int) ≤ e - 52)]
  have hpos : (0 : ℚ) < 2 ^ (e - 52) := by positivity
  have hround := roundHalfEven_sub_abs_le (x / 2 ^ (e - 52))
  have heq : (roundHalfEven (x / 2 ^ (e - 52)) : ℚ) * 2 ^ (e - 52) - x =
      ((roundHalfEven (x / 2 ^ (e - 52)) : ℚ) - x / 2 ^ (e - 52)) * 2 ^ (e - 52) := by
    field_simp
  rw [heq, abs_mul, abs_of_pos hpos]
  have h52 : (2 : ℚ) ^ (e - 52) = 2 ^ e / 2 ^ 52 := by
    rw [zpow_sub₀ (by norm_num)]
    norm_num
  calc |(roundHalfEven (x / 2 ^ (e - 52)) : ℚ) - x / 2 ^ (e - 52)| * 2 ^ (e - 52)
      ≤ 1 / 2 * 2 ^ (e - 52) := by
        exact mul_le_mul_of_nonneg_right hround (le_of_lt hpos)
    _ = 2 ^ e / 2 ^ 53 := by rw [h52]; ring
    _ ≤ |x| / 2 ^ 53 := by
        exact div_le_div_of_nonneg_right hlog (by positivity)


/-- A rational that lies between two consecutive integers, at a distance of
more than its rounding error from both, is rounded to a double strictly
between them. -/
theorem binary64_strictly_between {x : ℚ} {k : Int} {δ : ℚ}
    (hx : (2 : ℚ) ^ (-1022 : Int) ≤ |x|) (hlo : (k : ℚ) + δ ≤ x) (hhi : x ≤ (k : ℚ) + 1 - δ)
    (herr : |x| / 2 ^ 53 < δ) : (k : ℚ) < binary64 x ∧ binary64 x < (k : ℚ) + 1 := by
  have h := binary64_abs_sub_le hx
  rw [abs_le] at h
  constructor <;> linarith [h.1, h.2]

theorem Math_trunc_binary64_of_between {x : ℚ} {k : Int} {δ : ℚ}
    (hx : (2 : ℚ) ^ (-1022 : Int) ≤ |x|) (hlo : (k : ℚ) + δ ≤ x) (hhi : x ≤ (k : ℚ) + 1 - δ)
    (herr : |x| / 2 ^ 53 < δ) : Math_trunc (binary64 x) = Math_trunc x := by
  have hb := binary64_strictly_between hx hlo hhi herr
  have hδ : 0 < δ := lt_of_le_of_lt (by positivity) herr
  rcases le_or_lt 0 k with hk | hk
  · have hk' : (0 : ℚ) ≤ k := by exact_mod_cast hk
    rw [Math_trunc_eq_of_nonneg (k := k) (by linarith) (le_of_lt hb.1) hb.2,
      Math_trunc_eq_of_nonneg (k := k) (by linarith) (by linarith) (by linarith)]
  · have hk' : (k : ℚ) + 1 ≤ 0 := by exact_mod_cast hk
    rw [Math_trunc_eq_of_nonpos (k := k + 1) (by linarith) (by push_cast; linarith)
        (by push_cast; linarith),
      Math_trunc_eq_of_nonpos (k := k + 1) (by linarith) (by push_cast; linarith)
        (by push_cast; linarith)]

theorem binary64_quarter (n : Int) (hn : |n| < 2 ^ 53) :
    binary64 ((n : ℚ) / 4) = (n : ℚ) / 4 := by
  have h := binary64_dyadic n 2 hn (by norm_num)
  norm_num at h
  exact h

theorem binary64_intCast (n : Int) (hn : |n| < 2 ^ 53) : binary64 (n : ℚ) = n := by
  have h := binary64_dyadic n 0 hn (by norm_num)
  simpa using h

/-- Two binary64 subtractions of quarter multiples of moderate size are
exact. -/
theorem binary64_sub_sub_quarter (a b c : Int) (ha : |a| ≤ 2 ^ 40) (hb : |b| ≤ 2 ^ 40)
    (hc : |c| ≤ 2 ^ 40) :
    binary64 (binary64 ((a : ℚ) / 4 - (b : ℚ) / 4) - (c : ℚ) / 4) =
      ((a - b - c : Int) : ℚ) / 4 := by
  have hab : |a - b| < 2 ^ 53 := by
    rw [abs_lt]; rw [abs_le] at ha hb; constructor <;> omega
  have habc : |a - b - c| < 2 ^ 53 := by
    rw [abs_lt]; rw [abs_le] at ha hb hc; constructor <;> omega
  have e1 : (a : ℚ) / 4 - (b : ℚ) / 4 = ((a - b : Int) : ℚ) / 4 := by push_cast; ring
  rw [e1, binary64_quarter _ hab]
  have e2 : ((a - b : Int) : ℚ) / 4 - (c : ℚ) / 4 = ((a - b - c : Int) : ℚ) / 4 := by
    push_cast; ring
  rw [e2, binary64_quarter _ habc]

/-- The binary64 quotient by 3 of a quarter multiple of moderate size
truncates to the same integer as the exact quotient. -/
theorem Math_trunc_binary64_quarter_div_three (n : Int) (hn : |n| ≤ 2 ^ 42) :
    Math_trunc (binary64 ((n : ℚ) / 4 / 3)) = Math_trunc ((n : ℚ) / 4 / 3) := by
  rw [abs_le] at hn
  have hdm := Int.emod_add_ediv n 12
  have hr0 := Int.emod_nonneg n (by norm_num : (12 : Int) ≠ 0)
  have hr1 := Int.emod_lt_of_pos n (by norm_num : (0 : Int) < 12)
  have hx : (n : ℚ) / 4 / 3 = ((n / 12 : Int) : ℚ) + ((n % 12 : Int) : ℚ) / 12 := by
    have : (n : ℚ) = ((n % 12 + 12 * (n / 12) : Int) : ℚ) := by rw [hdm]
    rw [this]
    push_cast
    ring
  by_cases hrz : n % 12 = 0
  · have hint : (n : ℚ) / 4 / 3 = ((n / 12 : Int) : ℚ) := by
      rw [hx, hrz]; simp
    rw [hint, binary64_intCast]
    rw [abs_lt]
    constructor <;> omega
  · have hr0q : (1 : ℚ) ≤ ((n % 12 : Int) : ℚ) := by
      have : (1 : Int) ≤ n % 12 := by omega
      exact_mod_cast this
    have hr1q : ((n % 12 : Int) : ℚ) ≤ 11 := by
      have : n % 12 ≤ (11 : Int) := by omega
      exact_mod_cast this
    have hklo : (-(2 : ℚ) ^ 39) ≤ ((n / 12 : Int) : ℚ) := by
      have : (-(2 : Int) ^ 39) ≤ n / 12 := by omega
      exact_mod_cast this
    have hkhi : ((n / 12 : Int) : ℚ) ≤ 2 ^ 39 := by
      have : n / 12 ≤ (2 : Int) ^ 39 := by omega
      exact_mod_cast this
    have habs_lo : (1 : ℚ) / 12 ≤ |(n : ℚ) / 4 / 3| := by
      rw [hx]
      rcases le_or_lt 0 (n / 12) with hk | hk
      · have hkq : (0 : ℚ) ≤ ((n / 12 : Int) : ℚ) := by exact_mod_cast hk
        rw [abs_of_nonneg (by linarith)]
        linarith
      · have hkq : ((n / 12 : Int) : ℚ) ≤ -1 := by
          have : n / 12 ≤ (-1 : Int) := by omega
          exact_mod_cast this
        rw [abs_of_nonpos (by linarith)]
        linarith
    have habs_hi : |(n : ℚ) / 4 / 3| ≤ 2 ^ 39 + 1 := by
      rw [hx, abs_le]
      constructor <;> linarith
    apply Math_trunc_binary64_of_between (k := n / 12) (δ := 1 / 12)
    · refine le_trans ?_ habs_lo
      rw [zpow_neg, zpow_ofNat]
      rw [inv_eq_one_div]
      apply div_le_div_of_nonneg_left (by norm_num) (by norm_num)
      calc (12 : ℚ) ≤ 2 ^ 4 := by norm_num
        _ ≤ 2 ^ 1022 := pow_le_pow_right₀ (by norm_num) (by norm_num)
    · rw [hx]; linarith
    · rw [hx]; linarith
    · calc |(n : ℚ) / 4 / 3| / 2 ^ 53 ≤ (2 ^ 39 + 1) / 2 ^ 53 :=
          div_le_div_of_nonneg_right habs_hi (by positivity)
        _ < 1 / 12 := by norm_num

/-- The step of a margin on the quarter grid: the truncation of the exact
quotient. -/
theorem Math_trunc_binary64_of_quarter_margin (m : ℚ) (n k : Int) (hm : m = (n : ℚ) / 4)
    (hn : |n| ≤ 2 ^ 42) (hk : Math_trunc (m / 3) = k) : Math_trunc (binary64 (m / 3)) = k := by
  subst hm
  rw [Math_trunc_binary64_quarter_div_three n hn]
  exact hk

/-- The margin of three values on the quarter grid: the exact difference. -/
theorem binary64_margin_of_quarters (x y z m : ℚ) (a b c : Int) (hx : x = (a : ℚ) / 4)
    (hy : y = (b : ℚ) / 4) (hz : z = (c : ℚ) / 4) (ha : |a| ≤ 2 ^ 40) (hb : |b| ≤ 2 ^ 40)
    (hc : |c| ≤ 2 ^ 40) (hm : x - y - z = m) : binary64 (binary64 (x - y) - z) = m := by
  subst hx hy hz
  rw [binary64_sub_sub_quarter a b c ha hb hc, ← hm]
  push_cast
  ring

/-! ## C1: ADR disabled -/

/-- C1: when the request's `adr` flag is false, `handle` answers with the
request's own `dr`, `txPowerIndex` and `nbTrans` in both files; the alitecs
handler does so for every region table, the one with no region at all
included, so the region configuration is not consulted. -/
theorem adr_disabled_returns_request_values
    (req : DefaultCustom.AdrRequest) (areq : AlitecsRn2483Adr.AdrRequest)
    (region : AlitecsRn2483Adr.Region)
    (h : req.adr = false) (ha : areq.adr = false) :
    (DefaultCustom.handle req).1 =
        { dr := req.dr, txPowerIndex := req.txPowerIndex, nbTrans := req.nbTrans } ∧
      AlitecsRn2483Adr.handle region areq =
        some { dr := areq.dr, tx_power_index := areq.tx_power_index, nb_trans := areq.nb_trans } ∧
      AlitecsRn2483Adr.handle (fun _ => none) areq =
        some { dr := areq.dr, tx_power_index := areq.tx_power_index, nb_trans := areq.nb_trans } := by
  simp [DefaultCustom.handle, AlitecsRn2483Adr.handle, h, ha]

/-- C1 at a request with ADR off, `dr = 9`, and a region id no table knows. -/
theorem adr_disabled_returns_request_values_witness :
    (DefaultCustom.handle { DefaultCustom.docRequest with adr := false, dr := 9 }).1 =
        { dr := 9, txPowerIndex := 0, nbTrans := 1 } ∧
      AlitecsRn2483Adr.handle AlitecsRn2483Adr.regions
          { AlitecsRn2483Adr.docRequest with adr := false, dr := 9, region_config_id := "nowhere" } =
        some { dr := 9, tx_power_index := 0, nb_trans := 1 } ∧
      AlitecsRn2483Adr.handle (fun _ => none)
          { AlitecsRn2483Adr.docRequest with adr := false, dr := 9, region_config_id := "nowhere" } =
        some { dr := 9, tx_power_index := 0, nb_trans := 1 } :=
  adr_disabled_returns_request_values
    { DefaultCustom.docRequest with adr := false, dr := 9 }
    { AlitecsRn2483Adr.docRequest with adr := false, dr := 9, region_config_id := "nowhere" }
    AlitecsRn2483Adr.regions rfl rfl

/-! ## C2: the data rate stays under the effective ceiling (alitecs) -/

theorem AlitecsRn2483Adr.search_dr_le (max_tx_power_index max_dr : Int) :
    ∀ (nb_step tx_power_index dr : Int), dr ≤ max_dr →
      (get_ideal_tx_power_index_and_dr nb_step tx_power_index dr max_tx_power_index max_dr).2
        ≤ max_dr := by
  intro nb_step tx_power_index dr
  induction nb_step, tx_power_index, dr, max_tx_power_index, max_dr using
    get_ideal_tx_power_index_and_dr.induct with
  | case1 => intro h; rw [get_ideal_tx_power_index_and_dr]; simpa using h
  | case2 n tx dr mtx mdr h0 hpos hlt ih =>
    intro h; rw [get_ideal_tx_power_index_and_dr]; simp only [h0, hpos, hlt, if_true, if_false]
    exact ih (by omega)
  | case3 n tx dr mtx mdr h0 hpos hlt htx ih =>
    intro h; rw [get_ideal_tx_power_index_and_dr]; simp only [h0, hpos, hlt, htx, if_true, if_false]
    exact ih h
  | case4 n tx dr mtx mdr h0 hpos hlt htx ih =>
    intro h; rw [get_ideal_tx_power_index_and_dr]; simp only [h0, hpos, hlt, htx, if_true, if_false]
    exact ih h
  | case5 n tx dr mtx mdr h0 hpos htx ih =>
    intro h; rw [get_ideal_tx_power_index_and_dr]; simp only [h0, hpos, htx, if_true, if_false]
    exact ih h
  | case6 n dr mtx mdr h0 hpos htx ih =>
    intro h; rw [get_ideal_tx_power_index_and_dr]; simp only [h0, hpos, htx, if_true, if_false]
    exact ih (by omega)
  | case7 n tx dr mtx mdr h0 hpos htx h1 ih =>
    intro h; rw [get_ideal_tx_power_index_and_dr]; simp only [h0, hpos, htx, h1, if_true, if_false]
    exact ih h

/-- C2: in `alitecs-rn2483-adr.js`, with ADR enabled and the region found,
`handle` returns a response whose `dr` is at most the effective max DR,
`min(req.max_dr, max_lora_dr)`, whichever exit is taken. -/
theorem alitecs_response_dr_le_effective_max_dr
    (region : AlitecsRn2483Adr.Region) (req : AlitecsRn2483Adr.AdrRequest)
    (region_conf : AlitecsRn2483Adr.RegionConf)
    (hadr : req.adr = true) (hreg : region req.region_config_id = some region_conf) :
    ∃ resp, AlitecsRn2483Adr.handle region req = some resp ∧
      resp.dr ≤ min req.max_dr (AlitecsRn2483Adr.max_lora_dr region_conf : Int) := by
  have hmin : (if req.max_dr > (AlitecsRn2483Adr.max_lora_dr region_conf : Int)
      then (AlitecsRn2483Adr.max_lora_dr region_conf : Int) else req.max_dr)
      = min req.max_dr (AlitecsRn2483Adr.max_lora_dr region_conf : Int) := by
    split_ifs with h
    · exact (min_eq_right (le_of_lt h)).symm
    · exact (min_eq_left (not_lt.mp h)).symm
  simp only [AlitecsRn2483Adr.handle, hadr, hreg, hmin, Bool.not_true, Bool.false_eq_true,
    if_false]
  generalize min req.max_dr (AlitecsRn2483Adr.max_lora_dr region_conf : Int) = m
  by_cases hd : req.dr > m
  · simp only [hd, if_true]
    split_ifs
    · exact ⟨_, rfl, le_refl _⟩
    · exact ⟨_, rfl, AlitecsRn2483Adr.search_dr_le _ _ _ _ _ (le_refl _)⟩
  · simp only [hd, if_false]
    split_ifs
    · exact ⟨_, rfl, not_lt.mp hd⟩
    · exact ⟨_, rfl, AlitecsRn2483Adr.search_dr_le _ _ _ _ _ (not_lt.mp hd)⟩

/-- C2 at a request with `dr = 9` and `max_dr = 7` in a region whose highest
LoRa 125 kHz data rate is 5. -/
theorem alitecs_response_dr_le_effective_max_dr_witness :
    ∃ resp, AlitecsRn2483Adr.handle AlitecsRn2483Adr.regions
        { AlitecsRn2483Adr.docRequest with dr := 9, max_dr := 7 } = some resp ∧
      resp.dr ≤ min 7 (AlitecsRn2483Adr.max_lora_dr AlitecsRn2483Adr.eu868 : Int) :=
  alitecs_response_dr_le_effective_max_dr AlitecsRn2483Adr.regions
    { AlitecsRn2483Adr.docRequest with dr := 9, max_dr := 7 } AlitecsRn2483Adr.eu868 rfl rfl

/-! ## C3: the clamp of `dr` is lost by the search (default-custom) -/

theorem DefaultCustom.nStepOf_docRequest_like (req : AdrRequest)
    (hh : req.uplinkHistory = [{ fCnt := 10, maxSnr := 7.5, txPowerIndex := 0 }])
    (hr : req.requiredSnrForDr = -17.5) (hi : req.installationMargin = 10) :
    snrMarginOf req = 15 ∧ nStepOf req = 5 := by
  have hsnr : getMaxSNR req = 15 / 2 := by
    simp only [getMaxSNR, hh, List.foldl]
    norm_num
  have hm : snrMarginOf req = 15 := by
    simp only [snrMarginOf, hsnr, hr, hi]
    exact binary64_margin_of_quarters _ _ _ _ 30 (-70) 40 (by norm_num) (by norm_num)
      (by norm_num) (by norm_num) (by norm_num) (by norm_num) (by norm_num)
  refine ⟨hm, ?_⟩
  unfold nStepOf
  rw [hm]
  exact Math_trunc_binary64_of_quarter_margin 15 60 5 (by norm_num) (by norm_num)
    (Math_trunc_eq_of_nonneg (by norm_num) (by norm_num) (by norm_num))

/-- C3, the code at the failing input: for the request
`{adr: true, dr: 7, maxDr: 5, txPowerIndex: 0, maxTxPowerIndex: 15, ...}`
(step 5) `handle` in `default-custom.js` answers `dr = 7`, above `maxDr = 5`:
the search reads the unclamped `req.dr` and its result overwrites the clamped
`resp.dr`. -/
theorem default_custom_dr_clamp_lost :
    DefaultCustom.overMaxDrRequest.adr = true ∧
      DefaultCustom.overMaxDrRequest.maxDr = 5 ∧
      (DefaultCustom.handle DefaultCustom.overMaxDrRequest).1 =
        { dr := 7, txPowerIndex := 5, nbTrans := 1 } ∧
      ¬ ((DefaultCustom.handle DefaultCustom.overMaxDrRequest).1.dr ≤
          DefaultCustom.overMaxDrRequest.maxDr) := by
  have hstep : DefaultCustom.nStepOf DefaultCustom.overMaxDrRequest = 5 :=
    (DefaultCustom.nStepOf_docRequest_like _ rfl rfl rfl).2
  have hresp : (DefaultCustom.handle DefaultCustom.overMaxDrRequest).1 =
      { dr := 7, txPowerIndex := 5, nbTrans := 1 } := by
    simp [DefaultCustom.handle, hstep]
    simp [DefaultCustom.overMaxDrRequest, DefaultCustom.docRequest,
      DefaultCustom.getIdealTxPowerIndexAndDR, DefaultCustom.maxDrOrMaxRr, jsLt, jsGt,
      DefaultCustom.getNbTrans, DefaultCustom.getPacketLossPercentage,
      DefaultCustom.requiredHistoryCount, DefaultCustom.tableAt, DefaultCustom.pktLossRateTable]
  refine ⟨rfl, rfl, hresp, ?_⟩
  rw [hresp]
  decide

/-! ## C4: the power index and its ceiling -/

theorem AlitecsRn2483Adr.n_step_of_docRequest_like (req : AdrRequest)
    (hh : req.uplink_history = [{ f_cnt := 10, max_snr := 7.5, tx_power_index := 0 }])
    (hr : req.required_snr_for_dr = -17.5) (hi : req.installation_margin = 10) :
    snr_margin_of req = 15 ∧ n_step_of req = 5 := by
  have hsnr : get_max_snr req = 15 / 2 := by
    simp only [get_max_snr, hh, List.foldl]
    norm_num
  have hm : snr_margin_of req = 15 := by
    simp only [snr_margin_of, hsnr, hr, hi]
    exact binary64_margin_of_quarters _ _ _ _ 30 (-70) 40 (by norm_num) (by norm_num)
      (by norm_num) (by norm_num) (by norm_num) (by norm_num) (by norm_num)
  refine ⟨hm, ?_⟩
  unfold n_step_of
  rw [hm]
  exact Math_trunc_binary64_of_quarter_margin 15 60 5 (by norm_num) (by norm_num)
    (Math_trunc_eq_of_nonneg (by norm_num) (by norm_num) (by norm_num))

theorem AlitecsRn2483Adr.max_lora_dr_eu868 : max_lora_dr eu868 = 5 := by
  simp [max_lora_dr, eu868]

/-- C4 as stated fails: with `txPowerIndex = 9` above `maxTxPowerIndex = 5`
(ADR enabled, step 5) both handlers answer `txPowerIndex = 9`. -/
theorem response_txPowerIndex_above_max :
    (DefaultCustom.handle DefaultCustom.overMaxTxPowerRequest).1 =
        { dr := 5, txPowerIndex := 9, nbTrans := 1 } ∧
      ¬ ((DefaultCustom.handle DefaultCustom.overMaxTxPowerRequest).1.txPowerIndex ≤
          DefaultCustom.overMaxTxPowerRequest.maxTxPowerIndex) ∧
      AlitecsRn2483Adr.handle AlitecsRn2483Adr.regions AlitecsRn2483Adr.overMaxTxPowerRequest =
        some { dr := 5, tx_power_index := 9, nb_trans := 1 } ∧
      ¬ ((9 : Int) ≤ AlitecsRn2483Adr.overMaxTxPowerRequest.max_tx_power_index) := by
  have hstep : DefaultCustom.nStepOf DefaultCustom.overMaxTxPowerRequest = 5 :=
    (DefaultCustom.nStepOf_docRequest_like _ rfl rfl rfl).2
  have hresp : (DefaultCustom.handle DefaultCustom.overMaxTxPowerRequest).1 =
      { dr := 5, txPowerIndex := 9, nbTrans := 1 } := by
    simp [DefaultCustom.handle, hstep]
    simp [DefaultCustom.overMaxTxPowerRequest, DefaultCustom.docRequest,
      DefaultCustom.getIdealTxPowerIndexAndDR, DefaultCustom.maxDrOrMaxRr, jsLt, jsGt,
      DefaultCustom.getNbTrans, DefaultCustom.getPacketLossPercentage,
      DefaultCustom.requiredHistoryCount, DefaultCustom.tableAt, DefaultCustom.pktLossRateTable]
  have hastep : AlitecsRn2483Adr.n_step_of AlitecsRn2483Adr.overMaxTxPowerRequest = 5 :=
    (AlitecsRn2483Adr.n_step_of_docRequest_like _ rfl rfl rfl).2
  have hreg : AlitecsRn2483Adr.regions AlitecsRn2483Adr.overMaxTxPowerRequest.region_config_id
      = some AlitecsRn2483Adr.eu868 := rfl
  have haresp : AlitecsRn2483Adr.handle AlitecsRn2483Adr.regions
      AlitecsRn2483Adr.overMaxTxPowerRequest =
        some { dr := 5, tx_power_index := 9, nb_trans := 1 } := by
    simp [AlitecsRn2483Adr.handle, hastep, hreg, AlitecsRn2483Adr.max_lora_dr_eu868]
    simp [AlitecsRn2483Adr.overMaxTxPowerRequest, AlitecsRn2483Adr.docRequest,
      AlitecsRn2483Adr.get_ideal_tx_power_index_and_dr,
      AlitecsRn2483Adr.get_nb_trans, AlitecsRn2483Adr.get_packet_loss_percentage,
      AlitecsRn2483Adr.required_history_count, AlitecsRn2483Adr.tableAt,
      AlitecsRn2483Adr.pkt_loss_table]
  refine ⟨hresp, ?_, haresp, by decide⟩
  rw [hresp]
  decide

theorem DefaultCustom.search_txPowerIndex_le :
    ∀ (nStep : Int) (req : AdrRequest), req.txPowerIndex ≤ req.maxTxPowerIndex →
      (getIdealTxPowerIndexAndDR nStep req).1.txPowerIndex ≤ req.maxTxPowerIndex := by
  intro nStep req
  induction nStep, req using getIdealTxPowerIndexAndDR.induct with
  | case1 req => intro h; rw [getIdealTxPowerIndexAndDR]; simpa using h
  | case2 n req h0 hpos hlt ih =>
    intro h; rw [getIdealTxPowerIndexAndDR]; simp only [h0, hpos, hlt, if_true, if_false]
    exact ih h
  | case3 n req h0 hpos hlt htx ih =>
    intro h; rw [getIdealTxPowerIndexAndDR]; simp only [h0, hpos, hlt, htx, if_true, if_false]
    exact ih (by show req.txPowerIndex + 1 ≤ req.maxTxPowerIndex; omega)
  | case4 n req h0 hpos hlt htx ih =>
    intro h; rw [getIdealTxPowerIndexAndDR]; simp only [h0, hpos, hlt, htx, if_true, if_false]
    exact ih h
  | case5 n req h0 hpos htx ih =>
    intro h; rw [getIdealTxPowerIndexAndDR]; simp only [h0, hpos, htx, if_true, if_false]
    exact ih (by show req.txPowerIndex - 1 ≤ req.maxTxPowerIndex; omega)
  | case6 n req h0 hpos htx ih =>
    intro h; rw [getIdealTxPowerIndexAndDR]; simp only [h0, hpos, htx, if_true, if_false]
    exact ih h

theorem AlitecsRn2483Adr.search_tx_power_index_le (max_tx_power_index max_dr : Int) :
    ∀ (nb_step tx_power_index dr : Int), tx_power_index ≤ max_tx_power_index →
      (get_ideal_tx_power_index_and_dr nb_step tx_power_index dr max_tx_power_index max_dr).1
        ≤ max_tx_power_index := by
  intro nb_step tx_power_index dr
  induction nb_step, tx_power_index, dr, max_tx_power_index, max_dr using
    get_ideal_tx_power_index_and_dr.induct with
  | case1 => intro h; rw [get_ideal_tx_power_index_and_dr]; simpa using h
  | case2 n tx dr mtx mdr h0 hpos hlt ih =>
    intro h; rw [get_ideal_tx_power_index_and_dr]; simp only [h0, hpos, hlt, if_true, if_false]
    exact ih h
  | case3 n tx dr mtx mdr h0 hpos hlt htx ih =>
    intro h; rw [get_ideal_tx_power_index_and_dr]; simp only [h0, hpos, hlt, htx, if_true, if_false]
    exact ih (by omega)
  | case4 n tx dr mtx mdr h0 hpos hlt htx ih =>
    intro h; rw [get_ideal_tx_power_index_and_dr]; simp only [h0, hpos, hlt, htx, if_true, if_false]
    exact ih h
  | case5 n tx dr mtx mdr h0 hpos htx ih =>
    intro h; rw [get_ideal_tx_power_index_and_dr]; simp only [h0, hpos, htx, if_true, if_false]
    exact ih (by omega)
  | case6 n dr mtx mdr h0 hpos htx ih =>
    intro h; rw [get_ideal_tx_power_index_and_dr]; simp only [h0, hpos, htx, if_true, if_false]
    exact ih h
  | case7 n tx dr mtx mdr h0 hpos htx h1 ih =>
    intro h; rw [get_ideal_tx_power_index_and_dr]; simp only [h0, hpos, htx, h1, if_true, if_false]
    exact ih h

/-- C4, amended: when the request's `txPowerIndex` is at most its
`maxTxPowerIndex`, so is the `txPowerIndex` of the response, in both files
(for `alitecs-rn2483-adr.js`: of every response `handle` returns). -/
theorem response_txPowerIndex_le_max_of_request_le
    (req : DefaultCustom.AdrRequest) (areq : AlitecsRn2483Adr.AdrRequest)
    (region : AlitecsRn2483Adr.Region) (aresp : AlitecsRn2483Adr.AdrResponse)
    (h : req.txPowerIndex ≤ req.maxTxPowerIndex)
    (ha : areq.tx_power_index ≤ areq.max_tx_power_index)
    (hresp : AlitecsRn2483Adr.handle region areq = some aresp) :
    (DefaultCustom.handle req).1.txPowerIndex ≤ req.maxTxPowerIndex ∧
      aresp.tx_power_index ≤ areq.max_tx_power_index := by
  constructor
  · simp only [DefaultCustom.handle]
    split_ifs <;>
      first
        | exact h
        | exact DefaultCustom.search_txPowerIndex_le _ _ h
        | (split <;> exact h)
  · unfold AlitecsRn2483Adr.handle at hresp
    split_ifs at hresp with hadr
    · cases hresp; exact ha
    · cases hreg : region areq.region_config_id with
      | none => simp [hreg] at hresp
      | some region_conf =>
        simp only [hreg] at hresp
        split_ifs at hresp <;> cases hresp <;>
          first
            | exact ha
            | exact AlitecsRn2483Adr.search_tx_power_index_le _ _ _ _ _ ha

/-- C4, amended, at the doc-comment request (`txPowerIndex = 0`, ceiling 15) in
both files; the alitecs response there is `{dr: 5, tx_power_index: 1,
nb_trans: 1}`. -/
theorem response_txPowerIndex_le_max_of_request_le_witness :
    (DefaultCustom.handle DefaultCustom.docRequest).1.txPowerIndex ≤
        DefaultCustom.docRequest.maxTxPowerIndex ∧
      (1 : Int) ≤ AlitecsRn2483Adr.docRequest.max_tx_power_index := by
  have hastep : AlitecsRn2483Adr.n_step_of AlitecsRn2483Adr.docRequest = 5 :=
    (AlitecsRn2483Adr.n_step_of_docRequest_like _ rfl rfl rfl).2
  have hreg : AlitecsRn2483Adr.regions AlitecsRn2483Adr.docRequest.region_config_id
      = some AlitecsRn2483Adr.eu868 := rfl
  have haresp : AlitecsRn2483Adr.handle AlitecsRn2483Adr.regions AlitecsRn2483Adr.docRequest =
      some { dr := 5, tx_power_index := 1, nb_trans := 1 } := by
    simp [AlitecsRn2483Adr.handle, hastep, hreg, AlitecsRn2483Adr.max_lora_dr_eu868]
    simp [AlitecsRn2483Adr.docRequest, AlitecsRn2483Adr.get_ideal_tx_power_index_and_dr,
      AlitecsRn2483Adr.get_nb_trans, AlitecsRn2483Adr.get_packet_loss_percentage,
      AlitecsRn2483Adr.required_history_count, AlitecsRn2483Adr.tableAt,
      AlitecsRn2483Adr.pkt_loss_table]
  exact response_txPowerIndex_le_max_of_request_le DefaultCustom.docRequest
    AlitecsRn2483Adr.docRequest AlitecsRn2483Adr.regions
    { dr := 5, tx_power_index := 1, nb_trans := 1 } (by decide) (by decide) haresp

/-! ## C5: `handle` writes to the request object (default-custom) -/

/-- C5, the code at the failing input: on the request of its own doc comment
(`dr: 1, txPowerIndex: 0`, step 5) `handle` in `default-custom.js` returns
`{dr: 5, txPowerIndex: 1, nbTrans: 1}` and leaves the request object with
`dr = 5` and `txPowerIndex = 1`: the search increments the fields of `req`
itself. -/
theorem default_custom_handle_mutates_request :
    DefaultCustom.docRequest.dr = 1 ∧ DefaultCustom.docRequest.txPowerIndex = 0 ∧
      (DefaultCustom.handle DefaultCustom.docRequest).1 =
        { dr := 5, txPowerIndex := 1, nbTrans := 1 } ∧
      (DefaultCustom.handle DefaultCustom.docRequest).2 =
        { DefaultCustom.docRequest with dr := 5, txPowerIndex := 1 } ∧
      (DefaultCustom.handle DefaultCustom.docRequest).2 ≠ DefaultCustom.docRequest := by
  have hstep : DefaultCustom.nStepOf DefaultCustom.docRequest = 5 :=
    (DefaultCustom.nStepOf_docRequest_like _ rfl rfl rfl).2
  have hall : DefaultCustom.handle DefaultCustom.docRequest =
      ({ dr := 5, txPowerIndex := 1, nbTrans := 1 },
        { DefaultCustom.docRequest with dr := 5, txPowerIndex := 1 }) := by
    simp [DefaultCustom.handle, hstep]
    simp [DefaultCustom.docRequest,
      DefaultCustom.getIdealTxPowerIndexAndDR, DefaultCustom.maxDrOrMaxRr, jsLt, jsGt,
      DefaultCustom.getNbTrans, DefaultCustom.getPacketLossPercentage,
      DefaultCustom.requiredHistoryCount, DefaultCustom.tableAt, DefaultCustom.pktLossRateTable]
  refine ⟨rfl, rfl, ?_, ?_, ?_⟩
  · rw [hall]
  · rw [hall]
  · rw [hall]
    intro hEq
    have hdr := congrArg DefaultCustom.AdrRequest.dr hEq
    simp [DefaultCustom.docRequest] at hdr

/-! ## C6: the redundancy selector is the table lookup -/

theorem specClampNbTrans_mem (c : Int) :
    specClampNbTrans c = 1 ∨ specClampNbTrans c = 2 ∨ specClampNbTrans c = 3 := by
  unfold specClampNbTrans
  omega

/-- The two `if`s at the head of `getNbTrans` clamp to `[1, 3]`. -/
theorem code_clamp_eq_specClampNbTrans (c : Int) :
    (if (if c < 1 then 1 else c) > 3 then 3 else (if c < 1 then 1 else c)) =
      specClampNbTrans c := by
  unfold specClampNbTrans
  split_ifs <;> omega

theorem specLossBucket_cases (p : ℚ) :
    (p < 5 ∧ specLossBucket p = 0) ∨ (¬ p < 5 ∧ p < 10 ∧ specLossBucket p = 1) ∨
      (¬ p < 5 ∧ ¬ p < 10 ∧ p < 30 ∧ specLossBucket p = 2) ∨
      (¬ p < 5 ∧ ¬ p < 10 ∧ ¬ p < 30 ∧ specLossBucket p = 3) := by
  unfold specLossBucket
  by_cases h5 : p < 5
  · left; simp [h5]
  · by_cases h10 : p < 10
    · right; left; simp [h5, h10, not_lt.mp h5]
    · by_cases h30 : p < 30
      · right; right; left; simp [h5, h10, h30, not_lt.mp h10]
      · right; right; right; simp [h5, h10, h30]

theorem DefaultCustom.getNbTrans_eq_spec (c : Int) (p : ℚ) :
    getNbTrans c p = specNbTrans c p := by
  simp only [getNbTrans, specNbTrans, code_clamp_eq_specClampNbTrans]
  rcases specLossBucket_cases p with hp | hp | hp | hp <;>
    rcases specClampNbTrans_mem c with h | h | h <;>
    simp [hp, h, tableAt, pktLossRateTable, specNbTransTable]

theorem AlitecsRn2483Adr.get_nb_trans_eq_default (c : Int) (p : ℚ) :
    get_nb_trans c p = DefaultCustom.getNbTrans c p := rfl

/-- C6: the redundancy selector is the table lookup `T[b][c - 1]`, `c` the
current `nbTrans` clamped to `[1, 3]` and `b` the loss bucket, in both files;
`nbTrans = 2` with loss 7 gives 2 and `nbTrans = 1` with loss 40 gives 3. -/
theorem redundancy_selector_is_table_lookup (nbTrans : Int) (p : ℚ) :
    DefaultCustom.getNbTrans nbTrans p = specNbTrans nbTrans p ∧
      AlitecsRn2483Adr.get_nb_trans nbTrans p = specNbTrans nbTrans p ∧
      AlitecsRn2483Adr.get_nb_trans nbTrans p = DefaultCustom.getNbTrans nbTrans p ∧
      DefaultCustom.getNbTrans 2 7 = 2 ∧ DefaultCustom.getNbTrans 1 40 = 3 ∧
      AlitecsRn2483Adr.get_nb_trans 2 7 = 2 ∧ AlitecsRn2483Adr.get_nb_trans 1 40 = 3 := by
  refine ⟨DefaultCustom.getNbTrans_eq_spec _ _, ?_, rfl, ?_, ?_, ?_, ?_⟩
  · rw [AlitecsRn2483Adr.get_nb_trans_eq_default, DefaultCustom.getNbTrans_eq_spec]
  · norm_num [DefaultCustom.getNbTrans, DefaultCustom.tableAt, DefaultCustom.pktLossRateTable]
  · norm_num [DefaultCustom.getNbTrans, DefaultCustom.tableAt, DefaultCustom.pktLossRateTable]
  · norm_num [AlitecsRn2483Adr.get_nb_trans, AlitecsRn2483Adr.tableAt,
      AlitecsRn2483Adr.pkt_loss_table]
  · norm_num [AlitecsRn2483Adr.get_nb_trans, AlitecsRn2483Adr.tableAt,
      AlitecsRn2483Adr.pkt_loss_table]

/-! ## C7: the response's `nbTrans` is 1, 2 or 3 -/

theorem specNbTrans_mem (c : Int) (p : ℚ) :
    specNbTrans c p = 1 ∨ specNbTrans c p = 2 ∨ specNbTrans c p = 3 := by
  unfold specNbTrans
  rcases specLossBucket_cases p with ⟨_, hb⟩ | ⟨_, _, hb⟩ | ⟨_, _, _, hb⟩ | ⟨_, _, _, hb⟩ <;>
    rcases specClampNbTrans_mem c with h | h | h <;>
    simp [hb, h, specNbTransTable]

/-- C7: with ADR enabled, the `nbTrans` of the response is 1, 2 or 3 for every
integer `nbTrans` of the request and every history, on both exits of `handle`,
in both files (for `alitecs-rn2483-adr.js`, the region being found). -/
theorem response_nbTrans_in_one_to_three
    (req : DefaultCustom.AdrRequest) (areq : AlitecsRn2483Adr.AdrRequest)
    (region : AlitecsRn2483Adr.Region) (region_conf : AlitecsRn2483Adr.RegionConf)
    (h : req.adr = true) (ha : areq.adr = true)
    (hreg : region areq.region_config_id = some region_conf) :
    ((DefaultCustom.handle req).1.nbTrans = 1 ∨ (DefaultCustom.handle req).1.nbTrans = 2 ∨
        (DefaultCustom.handle req).1.nbTrans = 3) ∧
      ∃ aresp, AlitecsRn2483Adr.handle region areq = some aresp ∧
        (aresp.nb_trans = 1 ∨ aresp.nb_trans = 2 ∨ aresp.nb_trans = 3) := by
  constructor
  · have hnb : (DefaultCustom.handle req).1.nbTrans =
        DefaultCustom.getNbTrans req.nbTrans (DefaultCustom.getPacketLossPercentage req) := by
      simp only [DefaultCustom.handle, h, Bool.not_true, Bool.false_eq_true, if_false]
      split_ifs <;> rfl
    rw [hnb, DefaultCustom.getNbTrans_eq_spec]
    exact specNbTrans_mem _ _
  · have hm := specNbTrans_mem areq.nb_trans (AlitecsRn2483Adr.get_packet_loss_percentage areq)
    rw [← DefaultCustom.getNbTrans_eq_spec, ← AlitecsRn2483Adr.get_nb_trans_eq_default] at hm
    simp only [AlitecsRn2483Adr.handle, ha, hreg, Bool.not_true, Bool.false_eq_true, if_false]
    split_ifs <;> exact ⟨_, rfl, hm⟩

/-- C7 at requests with `nbTrans = 7` and `nb_trans = -2`. -/
theorem response_nbTrans_in_one_to_three_witness :
    ((DefaultCustom.handle { DefaultCustom.docRequest with nbTrans := 7 }).1.nbTrans = 1 ∨
        (DefaultCustom.handle { DefaultCustom.docRequest with nbTrans := 7 }).1.nbTrans = 2 ∨
        (DefaultCustom.handle { DefaultCustom.docRequest with nbTrans := 7 }).1.nbTrans = 3) ∧
      ∃ aresp, AlitecsRn2483Adr.handle AlitecsRn2483Adr.regions
          { AlitecsRn2483Adr.docRequest with nb_trans := -2 } = some aresp ∧
        (aresp.nb_trans = 1 ∨ aresp.nb_trans = 2 ∨ aresp.nb_trans = 3) :=
  response_nbTrans_in_one_to_three { DefaultCustom.docRequest with nbTrans := 7 }
    { AlitecsRn2483Adr.docRequest with nb_trans := -2 } AlitecsRn2483Adr.regions
    AlitecsRn2483Adr.eu868 rfl rfl rfl

/-! ## C8: the loss estimator -/

theorem lostFrom_eq_sum (prev : Int) (l : List Int) :
    lostFrom prev l =
      ∑ i in Finset.range l.length, ((prev :: l).getD (i + 1) 0 - (prev :: l).getD i 0 - 1) := by
  induction l generalizing prev with
  | nil => simp [lostFrom]
  | cons x xs ih =>
    rw [lostFrom, ih x, List.length_cons, Finset.sum_range_succ']
    simp
    ring

theorem specLostPackets_cons (x : Int) (xs : List Int) :
    specLostPackets (x :: xs) = lostFrom x xs := by
  rw [lostFrom_eq_sum, specLostPackets, Finset.sum_Ico_eq_sum_range]
  simp
  apply Finset.sum_congr rfl
  intro i _
  rw [add_comm 1 i]
  simp

theorem DefaultCustom.foldl_lossLoopBody_lostPackets (l : List UplinkHistory) :
    ∀ s : LossLoop, s.first = false →
      (l.foldl lossLoopBody s).lostPackets =
        s.lostPackets + lostFrom s.previousFCnt (l.map (fun uh => uh.fCnt)) := by
  induction l with
  | nil => intro s _; simp [lostFrom]
  | cons x xs ih =>
    intro s hs
    rw [List.foldl_cons, ih _ (by simp [lossLoopBody, hs])]
    simp [lossLoopBody, hs, lostFrom]
    ring

theorem DefaultCustom.loop_lostPackets (l : List UplinkHistory) :
    (l.foldl lossLoopBody { lostPackets := 0, previousFCnt := 0, first := true }).lostPackets =
      specLostPackets (l.map (fun uh => uh.fCnt)) := by
  cases l with
  | nil => simp [specLostPackets]
  | cons x xs =>
    rw [List.foldl_cons, DefaultCustom.foldl_lossLoopBody_lostPackets _ _ (by simp [lossLoopBody]),
      List.map_cons, specLostPackets_cons]
    simp [lossLoopBody]

theorem AlitecsRn2483Adr.foldl_lossLoopBody_lost_packets (l : List UplinkHistory) :
    ∀ s : LossLoop, s.i ≠ 0 →
      (l.foldl lossLoopBody s).lost_packets =
        s.lost_packets + lostFrom s.previous_f_cnt (l.map (fun h => h.f_cnt)) := by
  induction l with
  | nil => intro s _; simp [lostFrom]
  | cons x xs ih =>
    intro s hs
    rw [List.foldl_cons, ih _ (by simp [lossLoopBody, hs])]
    simp [lossLoopBody, hs, lostFrom]
    ring

theorem AlitecsRn2483Adr.loop_lost_packets (l : List UplinkHistory) :
    (l.foldl lossLoopBody { i := 0, lost_packets := 0, previous_f_cnt := 0 }).lost_packets =
      specLostPackets (l.map (fun h => h.f_cnt)) := by
  cases l with
  | nil => simp [specLostPackets]
  | cons x xs =>
    rw [List.foldl_cons, AlitecsRn2483Adr.foldl_lossLoopBody_lost_packets _ _ (by simp [lossLoopBody]),
      List.map_cons, specLostPackets_cons]
    simp [lossLoopBody]

theorem lossEstimatorContract_of_eq (f : List Int) (loss : ℚ)
    (h : loss = if f.length < 20 then 0 else (specLostPackets f : ℚ) / (f.length : ℚ) * 100) :
    LossEstimatorContract f loss := by
  refine ⟨?_, ?_, ?_, ?_⟩
  · intro hlt
    rw [h, if_pos hlt]
  · intro hge
    rw [h, if_neg (by omega)]
  · intro hge hcons
    have hz : specLostPackets f = 0 := by
      unfold specLostPackets
      apply Finset.sum_eq_zero
      intro i hi
      rw [Finset.mem_Ico] at hi
      rw [hcons i hi.1 hi.2]
      ring
    rw [h, if_neg (by omega), hz]
    simp
  · intro hge k G hk1 hkn hG hrest
    have hz : specLostPackets f = G - 1 := by
      unfold specLostPackets
      rw [Finset.sum_eq_single k]
      · rw [hG]
      · intro i hi hik
        rw [Finset.mem_Ico] at hi
        rw [hrest i hi.1 hi.2 hik]
        ring
      · intro hk
        exact absurd (Finset.mem_Ico.mpr ⟨hk1, hkn⟩) hk
    rw [h, if_neg (by omega), hz]
    push_cast
    ring

/-- C8: the loss estimator of both files meets the contract of the
specification on the frame counters of the history: 0 under 20 entries, the
sum of `f_i - f_{i-1} - 1` over the length times 100 from 20 entries on, hence
0 on consecutive counters and `(G - 1) / n * 100` for a single delta `G`. -/
theorem loss_estimator_meets_contract
    (req : DefaultCustom.AdrRequest) (areq : AlitecsRn2483Adr.AdrRequest) :
    LossEstimatorContract (req.uplinkHistory.map (fun uh => uh.fCnt))
        (DefaultCustom.getPacketLossPercentage req) ∧
      LossEstimatorContract (areq.uplink_history.map (fun h => h.f_cnt))
        (AlitecsRn2483Adr.get_packet_loss_percentage areq) := by
  constructor
  · apply lossEstimatorContract_of_eq
    simp only [DefaultCustom.getPacketLossPercentage, DefaultCustom.requiredHistoryCount,
      DefaultCustom.loop_lostPackets, List.length_map]
  · apply lossEstimatorContract_of_eq
    simp only [AlitecsRn2483Adr.get_packet_loss_percentage,
      AlitecsRn2483Adr.required_history_count, AlitecsRn2483Adr.loop_lost_packets,
      List.length_map]

theorem DefaultCustom.map_fCnt_uplinkAt (l : List Int) :
    (l.map uplinkAt).map (fun uh => uh.fCnt) = l := by
  induction l with
  | nil => rfl
  | cons x xs ih => rw [List.map_cons, List.map_cons, ih]; rfl

theorem AlitecsRn2483Adr.map_f_cnt_uplinkAt (l : List Int) :
    (l.map uplinkAt).map (fun h => h.f_cnt) = l := by
  induction l with
  | nil => rfl
  | cons x xs ih => rw [List.map_cons, List.map_cons, ih]; rfl

/-- C8 at concrete histories: twenty counters with a single delta of 4 give
`(4 - 1) / 20 * 100 = 15` in both files, and the one-entry history of the doc
comment gives 0. -/
theorem loss_estimator_meets_contract_witness :
    DefaultCustom.getPacketLossPercentage DefaultCustom.oneGapRequest = 15 ∧
      AlitecsRn2483Adr.get_packet_loss_percentage AlitecsRn2483Adr.oneGapRequest = 15 ∧
      DefaultCustom.getPacketLossPercentage DefaultCustom.docRequest = 0 := by
  have hf : DefaultCustom.oneGapRequest.uplinkHistory.map (fun uh => uh.fCnt) = oneGapCounters :=
    DefaultCustom.map_fCnt_uplinkAt _
  have hg : AlitecsRn2483Adr.oneGapRequest.uplink_history.map (fun h => h.f_cnt) =
      oneGapCounters := AlitecsRn2483Adr.map_f_cnt_uplinkAt _
  have hrest : ∀ i, 1 ≤ i → i < oneGapCounters.length → i ≠ 10 →
      oneGapCounters.getD i 0 - oneGapCounters.getD (i - 1) 0 = 1 := by
    intro i h1 h2 h3
    have h4 : i < 20 := h2
    interval_cases i <;> first | rfl | exact absurd rfl h3
  have h := loss_estimator_meets_contract DefaultCustom.oneGapRequest
    AlitecsRn2483Adr.oneGapRequest
  have hd := loss_estimator_meets_contract DefaultCustom.docRequest AlitecsRn2483Adr.docRequest
  rw [hf, hg] at h
  refine ⟨?_, ?_, hd.1.1 (by decide)⟩
  · have := h.1.2.2.2 (by decide) 10 4 (by decide) (by decide) rfl hrest
    rw [this]
    norm_num [oneGapCounters]
  · have := h.2.2.2.2 (by decide) 10 4 (by decide) (by decide) rfl hrest
    rw [this]
    norm_num [oneGapCounters]

/-! ## C9: the range of the loss estimate -/

theorem lostFrom_telescope (prev : Int) (l : List Int) :
    lostFrom prev l = (prev :: l).getD l.length 0 - prev - l.length := by
  induction l generalizing prev with
  | nil => simp [lostFrom]
  | cons x xs ih =>
    rw [lostFrom, ih x]
    simp
    ring

theorem specLostPackets_telescope (f : List Int) (hf : 1 ≤ f.length) :
    specLostPackets f = f.getD (f.length - 1) 0 - f.getD 0 0 - ((f.length : Int) - 1) := by
  cases f with
  | nil => simp at hf
  | cons x xs =>
    rw [specLostPackets_cons, lostFrom_telescope]
    simp

theorem specLostPackets_nonneg (f : List Int)
    (hinc : ∀ i, 1 ≤ i → i < f.length → f.getD (i - 1) 0 < f.getD i 0) :
    0 ≤ specLostPackets f := by
  unfold specLostPackets
  apply Finset.sum_nonneg
  intro i hi
  rw [Finset.mem_Ico] at hi
  have := hinc i hi.1 hi.2
  omega

theorem lossEstimateRange_of_eq (f : List Int) (loss : ℚ)
    (hinc : ∀ i, 1 ≤ i → i < f.length → f.getD (i - 1) 0 < f.getD i 0)
    (h : loss = if f.length < 20 then 0 else (specLostPackets f : ℚ) / (f.length : ℚ) * 100) :
    LossEstimateRange f loss := by
  by_cases hlt : f.length < 20
  · rw [if_pos hlt] at h
    refine ⟨by rw [h], fun hge => absurd hlt (by omega), ?_⟩
    rw [h]
    exact ⟨fun _ => Or.inl hlt, fun _ => by norm_num⟩
  · rw [if_neg hlt] at h
    have hn : (0 : ℚ) < (f.length : ℚ) := by
      have : 0 < f.length := by omega
      exact_mod_cast this
    have hnn := specLostPackets_nonneg f hinc
    have htel := specLostPackets_telescope f (by omega)
    have hnnq : (0 : ℚ) ≤ (specLostPackets f : ℚ) := by exact_mod_cast hnn
    refine ⟨?_, fun _ => by rw [h, htel], ?_⟩
    · rw [h]
      positivity
    · rw [← htel, h]
      constructor
      · intro hle
        right
        have h1 : (specLostPackets f : ℚ) / (f.length : ℚ) ≤ 1 := by linarith
        rw [div_le_one hn] at h1
        exact_mod_cast h1
      · intro hor
        rcases hor with hlt' | hle
        · exact absurd hlt' hlt
        · have h1 : (specLostPackets f : ℚ) ≤ (f.length : ℚ) := by exact_mod_cast hle
          have h2 : (specLostPackets f : ℚ) / (f.length : ℚ) ≤ 1 := (div_le_one hn).mpr h1
          linarith

/-- C9 as stated fails: on twenty strictly increasing, non-negative frame
counters `0, 3, .., 57` the loss estimator of both files returns 190, above
100. -/
theorem loss_estimate_above_100 :
    (∀ i, 1 ≤ i → i < sparseCounters.length →
        0 ≤ sparseCounters.getD (i - 1) 0 ∧
          sparseCounters.getD (i - 1) 0 < sparseCounters.getD i 0) ∧
      DefaultCustom.sparseRequest.uplinkHistory.map (fun uh => uh.fCnt) = sparseCounters ∧
      AlitecsRn2483Adr.sparseRequest.uplink_history.map (fun h => h.f_cnt) = sparseCounters ∧
      DefaultCustom.getPacketLossPercentage DefaultCustom.sparseRequest = 190 ∧
      AlitecsRn2483Adr.get_packet_loss_percentage AlitecsRn2483Adr.sparseRequest = 190 ∧
      ¬ (DefaultCustom.getPacketLossPercentage DefaultCustom.sparseRequest ≤ 100) := by
  have hf : DefaultCustom.sparseRequest.uplinkHistory.map (fun uh => uh.fCnt) = sparseCounters :=
    DefaultCustom.map_fCnt_uplinkAt _
  have hg : AlitecsRn2483Adr.sparseRequest.uplink_history.map (fun h => h.f_cnt) =
      sparseCounters := AlitecsRn2483Adr.map_f_cnt_uplinkAt _
  have hlen : DefaultCustom.sparseRequest.uplinkHistory.length = 20 := rfl
  have halen : AlitecsRn2483Adr.sparseRequest.uplink_history.length = 20 := rfl
  have hlost : specLostPackets sparseCounters = 38 := by
    rw [specLostPackets_telescope _ (by decide)]
    rfl
  have hd : DefaultCustom.getPacketLossPercentage DefaultCustom.sparseRequest = 190 := by
    simp only [DefaultCustom.getPacketLossPercentage, DefaultCustom.requiredHistoryCount,
      DefaultCustom.loop_lostPackets, hf, hlen, hlost]
    norm_num
  have ha : AlitecsRn2483Adr.get_packet_loss_percentage AlitecsRn2483Adr.sparseRequest = 190 := by
    simp only [AlitecsRn2483Adr.get_packet_loss_percentage,
      AlitecsRn2483Adr.required_history_count, AlitecsRn2483Adr.loop_lost_packets, hg, halen,
      hlost]
    norm_num
  refine ⟨?_, hf, hg, hd, ha, ?_⟩
  · intro i h1 h2
    have h3 : i < 20 := h2
    interval_cases i <;> decide
  · rw [hd]
    norm_num

/-- C9, amended: on a history whose frame counters are strictly increasing
the loss estimate of both files is not negative; from 20 entries on it is
`(f_{n-1} - f_0 - (n - 1)) / n * 100`, and it is at most 100 exactly when the
history is shorter than 20 or at most `n` packets were lost. -/
theorem loss_estimate_range_of_increasing
    (req : DefaultCustom.AdrRequest) (areq : AlitecsRn2483Adr.AdrRequest)
    (hinc : ∀ i, 1 ≤ i → i < (req.uplinkHistory.map (fun uh => uh.fCnt)).length →
      (req.uplinkHistory.map (fun uh => uh.fCnt)).getD (i - 1) 0 <
        (req.uplinkHistory.map (fun uh => uh.fCnt)).getD i 0)
    (hainc : ∀ i, 1 ≤ i → i < (areq.uplink_history.map (fun h => h.f_cnt)).length →
      (areq.uplink_history.map (fun h => h.f_cnt)).getD (i - 1) 0 <
        (areq.uplink_history.map (fun h => h.f_cnt)).getD i 0) :
    LossEstimateRange (req.uplinkHistory.map (fun uh => uh.fCnt))
        (DefaultCustom.getPacketLossPercentage req) ∧
      LossEstimateRange (areq.uplink_history.map (fun h => h.f_cnt))
        (AlitecsRn2483Adr.get_packet_loss_percentage areq) := by
  constructor
  · apply lossEstimateRange_of_eq _ _ hinc
    simp only [DefaultCustom.getPacketLossPercentage, DefaultCustom.requiredHistoryCount,
      DefaultCustom.loop_lostPackets, List.length_map]
  · apply lossEstimateRange_of_eq _ _ hainc
    simp only [AlitecsRn2483Adr.get_packet_loss_percentage,
      AlitecsRn2483Adr.required_history_count, AlitecsRn2483Adr.loop_lost_packets,
      List.length_map]

/-- C9, amended, at two strictly increasing histories of twenty counters. -/
theorem loss_estimate_range_of_increasing_witness :
    LossEstimateRange (DefaultCustom.oneGapRequest.uplinkHistory.map (fun uh => uh.fCnt))
        (DefaultCustom.getPacketLossPercentage DefaultCustom.oneGapRequest) ∧
      LossEstimateRange (AlitecsRn2483Adr.sparseRequest.uplink_history.map (fun h => h.f_cnt))
        (AlitecsRn2483Adr.get_packet_loss_percentage AlitecsRn2483Adr.sparseRequest) := by
  have hf : DefaultCustom.oneGapRequest.uplinkHistory.map (fun uh => uh.fCnt) = oneGapCounters :=
    DefaultCustom.map_fCnt_uplinkAt _
  have hg : AlitecsRn2483Adr.sparseRequest.uplink_history.map (fun h => h.f_cnt) =
      sparseCounters := AlitecsRn2483Adr.map_f_cnt_uplinkAt _
  apply loss_estimate_range_of_increasing
  · rw [hf]
    intro i h1 h2
    have h3 : i < 20 := h2
    interval_cases i <;> decide
  · rw [hg]
    intro i h1 h2
    have h3 : i < 20 := h2
    interval_cases i <;> decide

/-! ## C10: the step count and the rounding of the margin -/

theorem truncatedThird_Math_trunc (margin : ℚ) :
    TruncatedThird margin (Math_trunc (margin / 3)) := by
  have key : (0 ≤ margin → 3 * (Math_trunc (margin / 3) : ℚ) ≤ margin ∧
        margin < 3 * (Math_trunc (margin / 3) : ℚ) + 3) ∧
      (margin < 0 → 3 * (Math_trunc (margin / 3) : ℚ) - 3 < margin ∧
        margin ≤ 3 * (Math_trunc (margin / 3) : ℚ)) := by
    constructor
    · intro h
      have h3 : 0 ≤ margin / 3 := by positivity
      rw [Math_trunc_of_nonneg h3]
      have h1 := Int.floor_le (margin / 3)
      have h2 := Int.lt_floor_add_one (margin / 3)
      constructor <;> linarith
    · intro h
      have h3 : margin / 3 ≤ 0 := by linarith
      rw [Math_trunc_of_nonpos h3]
      have h1 := Int.le_ceil (margin / 3)
      have h2 := Int.ceil_lt_add_one (margin / 3)
      constructor <;> linarith
  refine ⟨key.1, key.2, ?_, ?_, ?_, ?_⟩
  · intro k hk1 hk2
    rcases le_or_lt 0 margin with h | h
    · have a := key.1 h
      have b := hk1 h
      have h1 : (k : ℚ) < (Math_trunc (margin / 3) : ℚ) + 1 := by linarith
      have h2 : (Math_trunc (margin / 3) : ℚ) < (k : ℚ) + 1 := by linarith
      have h1' : k < Math_trunc (margin / 3) + 1 := by exact_mod_cast h1
      have h2' : Math_trunc (margin / 3) < k + 1 := by exact_mod_cast h2
      omega
    · have a := key.2 h
      have b := hk2 h
      have h1 : (k : ℚ) < (Math_trunc (margin / 3) : ℚ) + 1 := by linarith
      have h2 : (Math_trunc (margin / 3) : ℚ) < (k : ℚ) + 1 := by linarith
      have h1' : k < Math_trunc (margin / 3) + 1 := by exact_mod_cast h1
      have h2' : Math_trunc (margin / 3) < k + 1 := by exact_mod_cast h2
      omega
  · rcases le_or_lt 0 margin with h | h
    · have a := key.1 h
      have hs : (0 : ℚ) ≤ 3 * (Math_trunc (margin / 3) : ℚ) := by
        have h1 : (-1 : ℚ) < (Math_trunc (margin / 3) : ℚ) := by linarith
        have h2 : (-1 : Int) < Math_trunc (margin / 3) := by exact_mod_cast h1
        have h3 : (0 : Int) ≤ Math_trunc (margin / 3) := by omega
        have h4 : (0 : ℚ) ≤ (Math_trunc (margin / 3) : ℚ) := by exact_mod_cast h3
        linarith
      rw [abs_of_nonneg hs, abs_of_nonneg h]
      exact a.1
    · have a := key.2 h
      have hs : 3 * (Math_trunc (margin / 3) : ℚ) ≤ 0 := by
        have h1 : (Math_trunc (margin / 3) : ℚ) < 1 := by linarith
        have h2 : Math_trunc (margin / 3) < 1 := by exact_mod_cast h1
        have h3 : Math_trunc (margin / 3) ≤ 0 := by omega
        have h4 : (Math_trunc (margin / 3) : ℚ) ≤ 0 := by exact_mod_cast h3
        linarith
      rw [abs_of_nonpos hs, abs_of_neg h]
      linarith [a.2]
  · intro hpos
    by_contra hneg
    have hm : margin ≤ 0 := not_lt.mp hneg
    rcases eq_or_lt_of_le hm with h0 | hlt
    · have a := key.1 (le_of_eq h0.symm)
      have h1 : (1 : ℚ) ≤ (Math_trunc (margin / 3) : ℚ) := by exact_mod_cast hpos
      linarith
    · have a := key.2 hlt
      have h1 : (1 : ℚ) ≤ (Math_trunc (margin / 3) : ℚ) := by exact_mod_cast hpos
      linarith
  · intro hneg
    by_contra hge
    have a := key.1 (not_lt.mp hge)
    have h1 : (Math_trunc (margin / 3) : ℚ) ≤ -1 := by
      have : Math_trunc (margin / 3) ≤ -1 := by omega
      exact_mod_cast this
    linarith [not_lt.mp hge]

theorem DefaultCustom.foldl_maxSnr (l : List UplinkHistory) :
    ∀ init : ℚ,
      init ≤ l.foldl (fun snrM uh => if uh.maxSnr > snrM then uh.maxSnr else snrM) init ∧
      (∀ x ∈ l.map (fun uh => uh.maxSnr),
        x ≤ l.foldl (fun snrM uh => if uh.maxSnr > snrM then uh.maxSnr else snrM) init) ∧
      (l.foldl (fun snrM uh => if uh.maxSnr > snrM then uh.maxSnr else snrM) init = init ∨
        l.foldl (fun snrM uh => if uh.maxSnr > snrM then uh.maxSnr else snrM) init ∈
          l.map (fun uh => uh.maxSnr)) := by
  induction l with
  | nil => intro init; simp
  | cons y ys ih =>
    intro init
    rw [List.foldl_cons, List.map_cons]
    obtain ⟨h1, h2, h3⟩ := ih (if y.maxSnr > init then y.maxSnr else init)
    have hinit : init ≤ (if y.maxSnr > init then y.maxSnr else init) := by
      split_ifs with h
      · exact le_of_lt h
      · exact le_refl _
    have hy : y.maxSnr ≤ (if y.maxSnr > init then y.maxSnr else init) := by
      split_ifs with h
      · exact le_refl _
      · exact not_lt.mp h
    refine ⟨le_trans hinit h1, ?_, ?_⟩
    · intro x hx
      rcases List.mem_cons.mp hx with hxy | hxs
      · rw [hxy]; exact le_trans hy h1
      · exact h2 x hxs
    · rcases h3 with h | h
      · rw [h]
        split_ifs with hlt
        · right; exact List.mem_cons_self _ _
        · left; rfl
      · right; exact List.mem_cons_of_mem _ h

theorem DefaultCustom.getMaxSNR_isSnrMax (req : AdrRequest) :
    IsSnrMax (req.uplinkHistory.map (fun uh => uh.maxSnr)) (getMaxSNR req) :=
  DefaultCustom.foldl_maxSnr req.uplinkHistory (-999)

theorem AlitecsRn2483Adr.foldl_max_snr (l : List UplinkHistory) :
    ∀ init : ℚ,
      init ≤ l.foldl (fun max_snr uh => if uh.max_snr > max_snr then uh.max_snr else max_snr)
        init ∧
      (∀ x ∈ l.map (fun uh => uh.max_snr),
        x ≤ l.foldl (fun max_snr uh => if uh.max_snr > max_snr then uh.max_snr else max_snr)
          init) ∧
      (l.foldl (fun max_snr uh => if uh.max_snr > max_snr then uh.max_snr else max_snr) init =
          init ∨
        l.foldl (fun max_snr uh => if uh.max_snr > max_snr then uh.max_snr else max_snr) init ∈
          l.map (fun uh => uh.max_snr)) := by
  induction l with
  | nil => intro init; simp
  | cons y ys ih =>
    intro init
    rw [List.foldl_cons, List.map_cons]
    obtain ⟨h1, h2, h3⟩ := ih (if y.max_snr > init then y.max_snr else init)
    have hinit : init ≤ (if y.max_snr > init then y.max_snr else init) := by
      split_ifs with h
      · exact le_of_lt h
      · exact le_refl _
    have hy : y.max_snr ≤ (if y.max_snr > init then y.max_snr else init) := by
      split_ifs with h
      · exact le_refl _
      · exact not_lt.mp h
    refine ⟨le_trans hinit h1, ?_, ?_⟩
    · intro x hx
      rcases List.mem_cons.mp hx with hxy | hxs
      · rw [hxy]; exact le_trans hy h1
      · exact h2 x hxs
    · rcases h3 with h | h
      · rw [h]
        split_ifs with hlt
        · right; exact List.mem_cons_self _ _
        · left; rfl
      · right; exact List.mem_cons_of_mem _ h

theorem AlitecsRn2483Adr.get_max_snr_isSnrMax (req : AdrRequest) :
    IsSnrMax (req.uplink_history.map (fun uh => uh.max_snr)) (get_max_snr req) :=
  AlitecsRn2483Adr.foldl_max_snr req.uplink_history (-999)

theorem onQuarterGrid_of_isSnrMax (l : List ℚ) (m : ℚ) (hl : ∀ x ∈ l, OnQuarterGrid x)
    (hm : IsSnrMax l m) : OnQuarterGrid m := by
  rcases hm.2.2 with h | h
  · exact ⟨-3996, by rw [h]; norm_num, by norm_num⟩
  · exact hl m h

/-- On the quarter grid the margin the code computes is the exact margin and
the step is the truncation of the exact quotient. -/
theorem margin_and_step_on_quarter_grid (snrM required installation : ℚ)
    (hs : OnQuarterGrid snrM) (hr : OnQuarterGrid required) (hi : OnQuarterGrid installation) :
    binary64 (binary64 (snrM - required) - installation) = snrM - required - installation ∧
      Math_trunc (binary64 ((snrM - required - installation) / 3)) =
        Math_trunc ((snrM - required - installation) / 3) := by
  obtain ⟨a, ha, hab⟩ := hs
  obtain ⟨b, hb, hbb⟩ := hr
  obtain ⟨c, hc, hcb⟩ := hi
  have hN : |a - b - c| ≤ 2 ^ 42 := by
    rw [abs_le] at hab hbb hcb ⊢
    constructor <;> omega
  have hexact : snrM - required - installation = ((a - b - c : Int) : ℚ) / 4 := by
    rw [ha, hb, hc]; push_cast; ring
  constructor
  · exact binary64_margin_of_quarters _ _ _ _ a b c ha hb hc hab hbb hcb rfl
  · rw [hexact]
    exact Math_trunc_binary64_quarter_div_three _ hN

/-- The binary64 operations of the step calculator at `maxSnr = -3.6`,
`requiredSnrForDr = -20`, `installationMargin = 1.4`. -/
theorem binary64_margin_at_rounding_input :
    binary64 (binary64 (doubleMinus3p6 - (-20)) - double1p4) =
      8444249301319679 / 562949953421312 := by
  have h1 : binary64 (doubleMinus3p6 - (-20)) = 2308094809027379 / 140737488355328 := by
    have h := binary64_eval (x := doubleMinus3p6 - (-20)) 4 4616189618054758
      (by norm_num [doubleMinus3p6])
      (by rw [abs_of_pos (by norm_num [doubleMinus3p6])]; norm_num [doubleMinus3p6])
      (by rw [abs_of_pos (by norm_num [doubleMinus3p6])]; norm_num [doubleMinus3p6])
      (by norm_num)
      (by rw [abs_lt]; constructor <;> norm_num [doubleMinus3p6])
    rw [h]
    norm_num
  rw [h1]
  have h := binary64_eval (x := (2308094809027379 : ℚ) / 140737488355328 - double1p4) 3
    8444249301319679
    (by norm_num [double1p4])
    (by rw [abs_of_pos (by norm_num [double1p4])]; norm_num [double1p4])
    (by rw [abs_of_pos (by norm_num [double1p4])]; norm_num [double1p4])
    (by norm_num)
    (by rw [abs_lt]; constructor <;> norm_num [double1p4])
  rw [h]
  norm_num

theorem step_at_rounding_input :
    Math_trunc (binary64 ((8444249301319679 : ℚ) / 562949953421312 / 3)) = 4 := by
  have h := binary64_eval (x := (8444249301319679 : ℚ) / 562949953421312 / 3) 2
    5629499534213119
    (by norm_num)
    (by rw [abs_of_pos (by norm_num)]; norm_num)
    (by rw [abs_of_pos (by norm_num)]; norm_num)
    (by norm_num)
    (by rw [abs_lt]; constructor <;> norm_num)
  rw [h]
  exact Math_trunc_eq_of_nonneg (by norm_num) (by norm_num) (by norm_num)

/-- C10 as stated fails: at `maxSnr = -3.6`, `requiredSnrForDr = -20`,
`installationMargin = 1.4` the margin over exact rationals is 15, whose third
truncates to 5, while both files compute the margin 14.999999999999998 in
binary64 and the step 4. -/
theorem step_differs_from_exact_truncation :
    DefaultCustom.getMaxSNR DefaultCustom.roundingRequest = doubleMinus3p6 ∧
      DefaultCustom.getMaxSNR DefaultCustom.roundingRequest -
          DefaultCustom.roundingRequest.requiredSnrForDr -
          DefaultCustom.roundingRequest.installationMargin = 15 ∧
      DefaultCustom.snrMarginOf DefaultCustom.roundingRequest =
        8444249301319679 / 562949953421312 ∧
      DefaultCustom.nStepOf DefaultCustom.roundingRequest = 4 ∧
      AlitecsRn2483Adr.n_step_of AlitecsRn2483Adr.roundingRequest = 4 ∧
      Math_trunc ((15 : ℚ) / 3) = 5 ∧
      ¬ (3 * (DefaultCustom.nStepOf DefaultCustom.roundingRequest : ℚ) ≤ 15 ∧
          (15 : ℚ) < 3 * (DefaultCustom.nStepOf DefaultCustom.roundingRequest : ℚ) + 3) := by
  have hsnr : DefaultCustom.getMaxSNR DefaultCustom.roundingRequest = doubleMinus3p6 := by
    simp only [DefaultCustom.getMaxSNR, DefaultCustom.roundingRequest, List.foldl]
    rw [if_pos (by norm_num [doubleMinus3p6])]
  have hasnr : AlitecsRn2483Adr.get_max_snr AlitecsRn2483Adr.roundingRequest =
      doubleMinus3p6 := by
    simp only [AlitecsRn2483Adr.get_max_snr, AlitecsRn2483Adr.roundingRequest, List.foldl]
    rw [if_pos (by norm_num [doubleMinus3p6])]
  have hr : DefaultCustom.roundingRequest.requiredSnrForDr = -20 := rfl
  have hi : DefaultCustom.roundingRequest.installationMargin = double1p4 := rfl
  have har : AlitecsRn2483Adr.roundingRequest.required_snr_for_dr = -20 := rfl
  have hai : AlitecsRn2483Adr.roundingRequest.installation_margin = double1p4 := rfl
  have hm : DefaultCustom.snrMarginOf DefaultCustom.roundingRequest =
      8444249301319679 / 562949953421312 := by
    simp only [DefaultCustom.snrMarginOf, hsnr, hr, hi]
    exact binary64_margin_at_rounding_input
  have ham : AlitecsRn2483Adr.snr_margin_of AlitecsRn2483Adr.roundingRequest =
      8444249301319679 / 562949953421312 := by
    simp only [AlitecsRn2483Adr.snr_margin_of, hasnr, har, hai]
    exact binary64_margin_at_rounding_input
  have hstep : DefaultCustom.nStepOf DefaultCustom.roundingRequest = 4 := by
    simp only [DefaultCustom.nStepOf, hm]
    exact step_at_rounding_input
  have hastep : AlitecsRn2483Adr.n_step_of AlitecsRn2483Adr.roundingRequest = 4 := by
    simp only [AlitecsRn2483Adr.n_step_of, ham]
    exact step_at_rounding_input
  refine ⟨hsnr, ?_, hm, hstep, hastep, ?_, ?_⟩
  · rw [hsnr, hr, hi]
    norm_num [doubleMinus3p6, double1p4]
  · exact Math_trunc_eq_of_nonneg (by norm_num) (by norm_num) (by norm_num)
  · rw [hstep]
    norm_num

/-- C10, amended: in both files the step count is `Math.trunc` of the
binary64 quotient by 3 of the margin computed by two binary64 subtractions,
`snrMax` being the greatest of -999 and the history's SNR values.  When the
history's SNR values, the required SNR and the installation margin are
multiples of 0.25 of magnitude at most `2^38`, the computed margin is the exact
`snrMax - requiredSnrForDr - installationMargin` and the step is its third
truncated toward zero; a margin of -5 gives the step -1, and `snrMax = 10`,
`requiredSnrForDr = -5`, `installationMargin = 10` give margin 5, step 1. -/
theorem step_is_margin_over_three_truncated_on_quarter_grid
    (req : DefaultCustom.AdrRequest) (areq : AlitecsRn2483Adr.AdrRequest)
    (hh : ∀ x ∈ req.uplinkHistory.map (fun uh => uh.maxSnr), OnQuarterGrid x)
    (hr : OnQuarterGrid req.requiredSnrForDr) (hi : OnQuarterGrid req.installationMargin)
    (hah : ∀ x ∈ areq.uplink_history.map (fun uh => uh.max_snr), OnQuarterGrid x)
    (har : OnQuarterGrid areq.required_snr_for_dr)
    (hai : OnQuarterGrid areq.installation_margin) :
    (IsSnrMax (req.uplinkHistory.map (fun uh => uh.maxSnr)) (DefaultCustom.getMaxSNR req) ∧
        DefaultCustom.nStepOf req = Math_trunc (binary64 (binary64 (binary64
          (DefaultCustom.getMaxSNR req - req.requiredSnrForDr) - req.installationMargin) / 3)) ∧
        DefaultCustom.snrMarginOf req =
          DefaultCustom.getMaxSNR req - req.requiredSnrForDr - req.installationMargin ∧
        TruncatedThird
          (DefaultCustom.getMaxSNR req - req.requiredSnrForDr - req.installationMargin)
          (DefaultCustom.nStepOf req) ∧
        (DefaultCustom.getMaxSNR req - req.requiredSnrForDr - req.installationMargin = -5 →
          DefaultCustom.nStepOf req = -1)) ∧
      (IsSnrMax (areq.uplink_history.map (fun uh => uh.max_snr))
          (AlitecsRn2483Adr.get_max_snr areq) ∧
        AlitecsRn2483Adr.n_step_of areq = Math_trunc (binary64 (binary64 (binary64
          (AlitecsRn2483Adr.get_max_snr areq - areq.required_snr_for_dr) -
            areq.installation_margin) / 3)) ∧
        AlitecsRn2483Adr.snr_margin_of areq =
          AlitecsRn2483Adr.get_max_snr areq - areq.required_snr_for_dr -
            areq.installation_margin ∧
        TruncatedThird
          (AlitecsRn2483Adr.get_max_snr areq - areq.required_snr_for_dr -
            areq.installation_margin)
          (AlitecsRn2483Adr.n_step_of areq) ∧
        (AlitecsRn2483Adr.get_max_snr areq - areq.required_snr_for_dr -
            areq.installation_margin = -5 → AlitecsRn2483Adr.n_step_of areq = -1)) := by
  have hm5 : Math_trunc ((-5 : ℚ) / 3) = -1 :=
    Math_trunc_eq_of_nonpos (by norm_num) (by norm_num) (by norm_num)
  constructor
  · have hmax := DefaultCustom.getMaxSNR_isSnrMax req
    have hg := margin_and_step_on_quarter_grid _ _ _
      (onQuarterGrid_of_isSnrMax _ _ hh hmax) hr hi
    have hmargin : DefaultCustom.snrMarginOf req =
        DefaultCustom.getMaxSNR req - req.requiredSnrForDr - req.installationMargin := hg.1
    have hstep : DefaultCustom.nStepOf req = Math_trunc
        ((DefaultCustom.getMaxSNR req - req.requiredSnrForDr - req.installationMargin) / 3) := by
      simp only [DefaultCustom.nStepOf, hmargin]
      exact hg.2
    refine ⟨hmax, rfl, hmargin, ?_, ?_⟩
    · rw [hstep]
      exact truncatedThird_Math_trunc _
    · intro h
      rw [hstep, h, hm5]
  · have hmax := AlitecsRn2483Adr.get_max_snr_isSnrMax areq
    have hg := margin_and_step_on_quarter_grid _ _ _
      (onQuarterGrid_of_isSnrMax _ _ hah hmax) har hai
    have hmargin : AlitecsRn2483Adr.snr_margin_of areq =
        AlitecsRn2483Adr.get_max_snr areq - areq.required_snr_for_dr -
          areq.installation_margin := hg.1
    have hstep : AlitecsRn2483Adr.n_step_of areq = Math_trunc
        ((AlitecsRn2483Adr.get_max_snr areq - areq.required_snr_for_dr -
          areq.installation_margin) / 3) := by
      simp only [AlitecsRn2483Adr.n_step_of, hmargin]
      exact hg.2
    refine ⟨hmax, rfl, hmargin, ?_, ?_⟩
    · rw [hstep]
      exact truncatedThird_Math_trunc _
    · intro h
      rw [hstep, h, hm5]

/-- C10, amended, at `snrMax = 10`, `requiredSnrForDr = -5`,
`installationMargin = 10` (margin 5, step 1) in `default-custom.js` and at
`snr_max = 0` with the same other values (margin -5, step -1) in
`alitecs-rn2483-adr.js`. -/
theorem step_is_margin_over_three_truncated_on_quarter_grid_witness :
    DefaultCustom.getMaxSNR DefaultCustom.marginFiveRequest = 10 ∧
      DefaultCustom.snrMarginOf DefaultCustom.marginFiveRequest = 5 ∧
      DefaultCustom.nStepOf DefaultCustom.marginFiveRequest = 1 ∧
      AlitecsRn2483Adr.snr_margin_of AlitecsRn2483Adr.marginMinusFiveRequest = -5 ∧
      AlitecsRn2483Adr.n_step_of AlitecsRn2483Adr.marginMinusFiveRequest = -1 := by
  have hsnr : DefaultCustom.getMaxSNR DefaultCustom.marginFiveRequest = 10 := by
    norm_num [DefaultCustom.getMaxSNR, DefaultCustom.marginFiveRequest]
  have hasnr : AlitecsRn2483Adr.get_max_snr AlitecsRn2483Adr.marginMinusFiveRequest = 0 := by
    norm_num [AlitecsRn2483Adr.get_max_snr, AlitecsRn2483Adr.marginMinusFiveRequest]
  have hr : DefaultCustom.marginFiveRequest.requiredSnrForDr = -5 := rfl
  have hi : DefaultCustom.marginFiveRequest.installationMargin = 10 := rfl
  have har : AlitecsRn2483Adr.marginMinusFiveRequest.required_snr_for_dr = -5 := rfl
  have hai : AlitecsRn2483Adr.marginMinusFiveRequest.installation_margin = 10 := rfl
  have h := step_is_margin_over_three_truncated_on_quarter_grid
    DefaultCustom.marginFiveRequest AlitecsRn2483Adr.marginMinusFiveRequest
    (by
      intro x hx
      have hx10 : x = 10 := by
        simpa [DefaultCustom.marginFiveRequest] using hx
      exact ⟨40, by rw [hx10]; norm_num, by norm_num⟩)
    ⟨-20, by rw [hr]; norm_num, by norm_num⟩
    ⟨40, by rw [hi]; norm_num, by norm_num⟩
    (by
      intro x hx
      have hx0 : x = 0 := by
        simpa [AlitecsRn2483Adr.marginMinusFiveRequest] using hx
      exact ⟨0, by rw [hx0]; norm_num, by norm_num⟩)
    ⟨-20, by rw [har]; norm_num, by norm_num⟩
    ⟨40, by rw [hai]; norm_num, by norm_num⟩
  obtain ⟨⟨_, _, hmargin, htrunc, _⟩, ⟨_, _, hamargin, _, hminus⟩⟩ := h
  have hm5 : DefaultCustom.getMaxSNR DefaultCustom.marginFiveRequest -
      DefaultCustom.marginFiveRequest.requiredSnrForDr -
      DefaultCustom.marginFiveRequest.installationMargin = 5 := by
    rw [hsnr, hr, hi]; norm_num
  have ham5 : AlitecsRn2483Adr.get_max_snr AlitecsRn2483Adr.marginMinusFiveRequest -
      AlitecsRn2483Adr.marginMinusFiveRequest.required_snr_for_dr -
      AlitecsRn2483Adr.marginMinusFiveRequest.installation_margin = -5 := by
    rw [hasnr, har, hai]; norm_num
  refine ⟨hsnr, by rw [hmargin, hm5], ?_, by rw [hamargin, ham5], hminus ham5⟩
  rw [hm5] at htrunc
  exact (htrunc.2.2.1 1 (fun _ => by norm_num) (fun h => by norm_num at h)).symm

/-! ## The two exits of `handle` -/

/-- With ADR enabled, `handle` of `default-custom.js` returns the clamped
response when it defers and the result of the search otherwise. -/
theorem DefaultCustom.handle_of_adr (req : AdrRequest) (hadr : req.adr = true) :
    handle req =
      if nStepOf req < 0 ∧ getHistoryCount req < requiredHistoryCount then
        ({ dr := clampedDr req, txPowerIndex := req.txPowerIndex,
           nbTrans := getNbTrans req.nbTrans (getPacketLossPercentage req) }, req)
      else
        ({ dr := (getIdealTxPowerIndexAndDR (nStepOf req) req).1.dr,
           txPowerIndex := (getIdealTxPowerIndexAndDR (nStepOf req) req).1.txPowerIndex,
           nbTrans := getNbTrans req.nbTrans (getPacketLossPercentage req) },
          (getIdealTxPowerIndexAndDR (nStepOf req) req).2) := by
  simp only [handle, hadr, Bool.not_true, Bool.false_eq_true, if_false, clampedDr]
  cases hc : maxDrOrMaxRr req with
  | none => simp only [jsGt, Bool.false_eq_true, if_false]
  | some m =>
    simp only [jsGt, decide_eq_true_eq]
    by_cases hd : req.dr > m <;> simp only [hd, if_true, if_false]

/-- With ADR enabled and the region found, `handle` is the response under
the ceiling `min(req.max_dr, max_lora_dr)`. -/
theorem AlitecsRn2483Adr.handle_eq_responseUnderCeiling
    (region : Region) (req : AdrRequest) (region_conf : RegionConf)
    (hadr : req.adr = true) (hreg : region req.region_config_id = some region_conf) :
    handle region req =
      some (responseUnderCeiling req (min req.max_dr (max_lora_dr region_conf : Int))) := by
  have hmin : (if req.max_dr > (max_lora_dr region_conf : Int)
      then (max_lora_dr region_conf : Int) else req.max_dr)
      = min req.max_dr (max_lora_dr region_conf : Int) := by
    split_ifs with h
    · exact (min_eq_right (le_of_lt h)).symm
    · exact (min_eq_left (not_lt.mp h)).symm
  simp only [handle, hadr, hreg, hmin, Bool.not_true, Bool.false_eq_true, if_false,
    responseUnderCeiling]
  generalize min req.max_dr (max_lora_dr region_conf : Int) = m
  by_cases hd : req.dr > m <;> simp only [hd, if_true, if_false] <;> split_ifs <;> rfl

/-! ## C11: the deferral -/

/-- With ADR enabled, a negative step and fewer than 20 history entries at the
request's `txPowerIndex`, `handle` of `default-custom.js` returns the clamped
`dr`, the request's `txPowerIndex` and the selector's `nbTrans`, and does not
run the search (the request object is left as it was). -/
theorem DefaultCustom.handle_deferral (req : AdrRequest) (hadr : req.adr = true)
    (hstep : nStepOf req < 0) (hcount : getHistoryCount req < 20) :
    handle req =
      ({ dr := clampedDr req, txPowerIndex := req.txPowerIndex,
         nbTrans := getNbTrans req.nbTrans (getPacketLossPercentage req) }, req) := by
  rw [DefaultCustom.handle_of_adr req hadr, if_pos ⟨hstep, hcount⟩]

/-- When `maxDr` is not zero the clamp of `default-custom.js` is the clamp to
`maxDr`. -/
theorem DefaultCustom.clampedDr_of_maxDr_ne_zero (req : AdrRequest) (h : req.maxDr ≠ 0) :
    clampedDr req = if req.dr ≤ req.maxDr then req.dr else req.maxDr := by
  simp only [clampedDr, maxDrOrMaxRr, h, ne_eq, not_false_eq_true, if_true]
  split_ifs <;> omega

/-- With ADR enabled, the region found, a negative step and fewer than 20
history entries at the request's `tx_power_index`, `handle` of
`alitecs-rn2483-adr.js` returns `dr` clamped to `min(max_dr, max_lora_dr)`, the
request's `tx_power_index` and the selector's `nb_trans`. -/
theorem AlitecsRn2483Adr.handle_deferred (region : Region) (req : AdrRequest)
    (region_conf : RegionConf) (hadr : req.adr = true)
    (hreg : region req.region_config_id = some region_conf)
    (hstep : n_step_of req < 0) (hcount : get_history_count req < 20) :
    handle region req =
      some { dr := if req.dr ≤ min req.max_dr (max_lora_dr region_conf : Int) then req.dr
                   else min req.max_dr (max_lora_dr region_conf : Int),
             tx_power_index := req.tx_power_index,
             nb_trans := get_nb_trans req.nb_trans (get_packet_loss_percentage req) } := by
  rw [AlitecsRn2483Adr.handle_eq_responseUnderCeiling region req region_conf hadr hreg]
  have hne : get_history_count req ≠ required_history_count := by
    unfold required_history_count
    omega
  simp only [responseUnderCeiling, hstep, hne, ne_eq, not_false_eq_true, and_self, if_true]
  congr 2
  split_ifs <;> omega

/-- C11, the code at the failing input: for the request
`{adr: true, dr: 3, maxDr: 0, txPowerIndex: 0, nbTrans: 1, uplinkHistory: []}`
(negative step, no history entry at the current power index) `handle` of
`default-custom.js` defers and answers `dr = 3`: `req.maxDr || req.maxRr` is
`undefined` when `maxDr` is 0, so the clamp to the max DR 0 is not applied. -/
theorem default_custom_deferral_no_clamp_at_zero_maxDr :
    DefaultCustom.zeroMaxDrRequest.adr = true ∧
      DefaultCustom.zeroMaxDrRequest.dr = 3 ∧
      DefaultCustom.zeroMaxDrRequest.maxDr = 0 ∧
      DefaultCustom.zeroMaxDrRequest.maxRr = none ∧
      DefaultCustom.nStepOf DefaultCustom.zeroMaxDrRequest = -330 ∧
      DefaultCustom.getHistoryCount DefaultCustom.zeroMaxDrRequest = 0 ∧
      (DefaultCustom.handle DefaultCustom.zeroMaxDrRequest).1 =
        { dr := 3, txPowerIndex := 0, nbTrans := 1 } ∧
      (DefaultCustom.handle DefaultCustom.zeroMaxDrRequest).1.dr ≠
        (if DefaultCustom.zeroMaxDrRequest.dr ≤ DefaultCustom.zeroMaxDrRequest.maxDr
          then DefaultCustom.zeroMaxDrRequest.dr else DefaultCustom.zeroMaxDrRequest.maxDr) := by
  have hsnr : DefaultCustom.getMaxSNR DefaultCustom.zeroMaxDrRequest = -999 := rfl
  have hm : DefaultCustom.snrMarginOf DefaultCustom.zeroMaxDrRequest = -1983 / 2 := by
    simp only [DefaultCustom.snrMarginOf, hsnr]
    exact binary64_margin_of_quarters _ _ _ _ (-3996) (-70) 40 (by norm_num)
      (by norm_num [DefaultCustom.zeroMaxDrRequest, DefaultCustom.docRequest])
      (by norm_num [DefaultCustom.zeroMaxDrRequest, DefaultCustom.docRequest])
      (by norm_num) (by norm_num) (by norm_num)
      (by norm_num [DefaultCustom.zeroMaxDrRequest, DefaultCustom.docRequest])
  have hstep : DefaultCustom.nStepOf DefaultCustom.zeroMaxDrRequest = -330 := by
    unfold DefaultCustom.nStepOf
    rw [hm]
    exact Math_trunc_binary64_of_quarter_margin (-1983 / 2) (-3966) (-330) (by norm_num)
      (by norm_num) (Math_trunc_eq_of_nonpos (by norm_num) (by norm_num) (by norm_num))
  have hcount : DefaultCustom.getHistoryCount DefaultCustom.zeroMaxDrRequest = 0 := rfl
  have hresp : (DefaultCustom.handle DefaultCustom.zeroMaxDrRequest).1 =
      { dr := 3, txPowerIndex := 0, nbTrans := 1 } := by
    rw [DefaultCustom.handle_deferral _ rfl (by rw [hstep]; decide) (by rw [hcount]; decide)]
    simp [DefaultCustom.clampedDr, DefaultCustom.maxDrOrMaxRr, DefaultCustom.zeroMaxDrRequest,
      DefaultCustom.docRequest, DefaultCustom.getNbTrans, DefaultCustom.getPacketLossPercentage,
      DefaultCustom.requiredHistoryCount, DefaultCustom.tableAt, DefaultCustom.pktLossRateTable]
  refine ⟨rfl, rfl, rfl, rfl, hstep, hcount, hresp, ?_⟩
  rw [hresp]
  decide

/-! ## C12: the search on a positive step -/

theorem AlitecsRn2483Adr.search_of_nonneg (max_tx_power_index max_dr : Int) :
    ∀ (nb_step tx_power_index dr : Int), 0 ≤ nb_step → dr ≤ max_dr →
      get_ideal_tx_power_index_and_dr nb_step tx_power_index dr max_tx_power_index max_dr =
        (tx_power_index + min (nb_step - (min (dr + nb_step) max_dr - dr))
            (max (max_tx_power_index - tx_power_index) 0),
          min (dr + nb_step) max_dr) := by
  intro nb_step tx_power_index dr
  induction nb_step, tx_power_index, dr, max_tx_power_index, max_dr using
    get_ideal_tx_power_index_and_dr.induct with
  | case1 tx dr mtx mdr =>
    intro _ h; rw [get_ideal_tx_power_index_and_dr]
    simp only [if_true, Prod.mk.injEq]
    constructor <;> omega
  | case2 n tx dr mtx mdr h0 hpos hlt ih =>
    intro _ h; rw [get_ideal_tx_power_index_and_dr]; simp only [h0, hpos, hlt, if_true, if_false]
    rw [ih (by omega) (by omega)]
    simp only [Prod.mk.injEq]
    constructor <;> omega
  | case3 n tx dr mtx mdr h0 hpos hlt htx ih =>
    intro _ h; rw [get_ideal_tx_power_index_and_dr]
    simp only [h0, hpos, hlt, htx, if_true, if_false]
    rw [ih (by omega) (by omega)]
    simp only [Prod.mk.injEq]
    constructor <;> omega
  | case4 n tx dr mtx mdr h0 hpos hlt htx ih =>
    intro _ h; rw [get_ideal_tx_power_index_and_dr]
    simp only [h0, hpos, hlt, htx, if_true, if_false]
    rw [ih (by omega) (by omega)]
    simp only [Prod.mk.injEq]
    constructor <;> omega
  | case5 n tx dr mtx mdr h0 hpos htx ih => intro h; omega
  | case6 n dr mtx mdr h0 hpos htx ih => intro h; omega
  | case7 n tx dr mtx mdr h0 hpos htx h1 ih => intro h; omega

/-- The ceiling `req.maxDr || req.maxRr` is `maxDr` when `maxDr` is not zero
and `maxRr` when `maxDr` is zero. -/
theorem DefaultCustom.maxDrOrMaxRr_eq_some (req : AdrRequest) (c : Int)
    (h : maxDrOrMaxRr req = some c) :
    (req.maxDr ≠ 0 → c = req.maxDr) ∧ (req.maxDr = 0 → req.maxRr = some c) := by
  unfold maxDrOrMaxRr at h
  constructor
  · intro h0
    rw [if_pos h0] at h
    exact (Option.some.inj h).symm
  · intro h0
    rw [if_neg (by simp [h0])] at h
    exact h

theorem DefaultCustom.getIdealTxPowerIndexAndDR_of_nonneg (c : Int) :
    ∀ (nStep : Int) (req : AdrRequest), 0 ≤ nStep → maxDrOrMaxRr req = some c → req.dr ≤ c →
      (getIdealTxPowerIndexAndDR nStep req).1 =
        { txPowerIndex := req.txPowerIndex + min (nStep - (min (req.dr + nStep) c - req.dr))
            (max (req.maxTxPowerIndex - req.txPowerIndex) 0),
          dr := min (req.dr + nStep) c } := by
  intro nStep req
  induction nStep, req using getIdealTxPowerIndexAndDR.induct with
  | case1 req =>
    intro _ _ h; rw [getIdealTxPowerIndexAndDR]
    simp only [if_true, IdealValues.mk.injEq]
    constructor <;> omega
  | case2 n req h0 hpos hlt ih =>
    intro _ hc h
    have hlt' : req.dr < c := by
      rw [hc] at hlt
      simpa [jsLt] using hlt
    rw [getIdealTxPowerIndexAndDR]
    simp only [h0, hpos, hlt, if_true, if_false]
    rw [ih (by omega) hc (by show req.dr + 1 ≤ c; omega)]
    simp only [IdealValues.mk.injEq]
    constructor
    · show req.txPowerIndex + min (n - 1 - (min (req.dr + 1 + (n - 1)) c - (req.dr + 1)))
          (max (req.maxTxPowerIndex - req.txPowerIndex) 0) =
        req.txPowerIndex + min (n - (min (req.dr + n) c - req.dr))
          (max (req.maxTxPowerIndex - req.txPowerIndex) 0)
      omega
    · show min (req.dr + 1 + (n - 1)) c = min (req.dr + n) c
      omega
  | case3 n req h0 hpos hlt htx ih =>
    intro _ hc h
    have hlt' : ¬ req.dr < c := by
      rw [hc] at hlt
      simpa [jsLt] using hlt
    rw [getIdealTxPowerIndexAndDR]
    simp only [h0, hpos, hlt, htx, if_true, if_false, Bool.false_eq_true]
    rw [ih (by omega) hc h]
    simp only [IdealValues.mk.injEq]
    constructor
    · show req.txPowerIndex + 1 + min (n - 1 - (min (req.dr + (n - 1)) c - req.dr))
          (max (req.maxTxPowerIndex - (req.txPowerIndex + 1)) 0) =
        req.txPowerIndex + min (n - (min (req.dr + n) c - req.dr))
          (max (req.maxTxPowerIndex - req.txPowerIndex) 0)
      omega
    · show min (req.dr + (n - 1)) c = min (req.dr + n) c
      omega
  | case4 n req h0 hpos hlt htx ih =>
    intro _ hc h
    have hlt' : ¬ req.dr < c := by
      rw [hc] at hlt
      simpa [jsLt] using hlt
    rw [getIdealTxPowerIndexAndDR]
    simp only [h0, hpos, hlt, htx, if_true, if_false, Bool.false_eq_true]
    rw [ih (by omega) hc h]
    simp only [IdealValues.mk.injEq]
    constructor <;> omega
  | case5 n req h0 hpos htx ih => intro h; omega
  | case6 n req h0 hpos htx ih => intro h; omega

/-- C12 as stated fails: on `step = 2` with `dr = 0`, `maxDr = 0` and a field
`maxRr = 5` the search of `default-custom.js` takes `maxRr` as the ceiling and
returns `dr = 2`, `txPowerIndex = 0`; the claimed `min(dr + n, maxDr)` is 0. -/
theorem default_custom_search_ceiling_is_maxRr :
    DefaultCustom.maxRrRequest.dr ≤ DefaultCustom.maxRrRequest.maxDr ∧
      DefaultCustom.maxRrRequest.maxDr = 0 ∧
      DefaultCustom.maxRrRequest.maxRr = some 5 ∧
      (DefaultCustom.getIdealTxPowerIndexAndDR 2 DefaultCustom.maxRrRequest).1 =
        { txPowerIndex := 0, dr := 2 } ∧
      (DefaultCustom.getIdealTxPowerIndexAndDR 2 DefaultCustom.maxRrRequest).1.dr ≠
        min (DefaultCustom.maxRrRequest.dr + 2) DefaultCustom.maxRrRequest.maxDr := by
  have hres : (DefaultCustom.getIdealTxPowerIndexAndDR 2 DefaultCustom.maxRrRequest).1 =
      { txPowerIndex := 0, dr := 2 } := by
    simp [DefaultCustom.getIdealTxPowerIndexAndDR, DefaultCustom.maxRrRequest,
      DefaultCustom.docRequest, DefaultCustom.maxDrOrMaxRr, jsLt]
  refine ⟨by decide, rfl, rfl, hres, ?_⟩
  rw [hres]
  decide

/-- C12, amended: on a step `n > 0` with `dr` at most the ceiling the search
of both files returns `dr' = min(dr + n, ceiling)` and
`txPowerIndex' = txPowerIndex + min(n - (dr' - dr), max(maxTxPowerIndex - txPowerIndex, 0))`.
The ceiling is `max_dr` in `alitecs-rn2483-adr.js`; in `default-custom.js` it is
the value `c` of `req.maxDr || req.maxRr`: `maxDr` when `maxDr` is not zero and
`maxRr` when `maxDr` is zero. -/
theorem search_positive_step_under_ceiling
    (n tx_power_index dr max_tx_power_index max_dr : Int) (req : DefaultCustom.AdrRequest)
    (c : Int) (hn : 0 < n) (hdr : dr ≤ max_dr)
    (hceil : DefaultCustom.maxDrOrMaxRr req = some c) (hreq : req.dr ≤ c) :
    AlitecsRn2483Adr.get_ideal_tx_power_index_and_dr n tx_power_index dr max_tx_power_index
        max_dr =
        (tx_power_index + min (n - (min (dr + n) max_dr - dr))
            (max (max_tx_power_index - tx_power_index) 0),
          min (dr + n) max_dr) ∧
      (DefaultCustom.getIdealTxPowerIndexAndDR n req).1 =
        { txPowerIndex := req.txPowerIndex + min (n - (min (req.dr + n) c - req.dr))
            (max (req.maxTxPowerIndex - req.txPowerIndex) 0),
          dr := min (req.dr + n) c } ∧
      (req.maxDr ≠ 0 → c = req.maxDr) ∧ (req.maxDr = 0 → req.maxRr = some c) :=
  ⟨AlitecsRn2483Adr.search_of_nonneg _ _ _ _ _ (le_of_lt hn) hdr,
    DefaultCustom.getIdealTxPowerIndexAndDR_of_nonneg c _ _ (le_of_lt hn) hceil hreq,
    (DefaultCustom.maxDrOrMaxRr_eq_some req c hceil).1,
    (DefaultCustom.maxDrOrMaxRr_eq_some req c hceil).2⟩

/-- C12, amended, at `step = 2`, `dr = 3`, `maxDr = 5`, `txPowerIndex = 0`,
`maxTxPowerIndex = 3`: `dr = 5` and `txPowerIndex = 0` in both files. -/
theorem search_positive_step_under_ceiling_witness :
    AlitecsRn2483Adr.get_ideal_tx_power_index_and_dr 2 0 3 3 5 = (0, 5) ∧
      (DefaultCustom.getIdealTxPowerIndexAndDR 2 DefaultCustom.searchUpRequest).1 =
        { txPowerIndex := 0, dr := 5 } := by
  have h := search_positive_step_under_ceiling 2 0 3 3 5 DefaultCustom.searchUpRequest 5
    (by decide) (by decide) rfl (by decide)
  refine ⟨?_, ?_⟩
  · rw [h.1]; decide
  · rw [h.2.1]
    simp [DefaultCustom.searchUpRequest, DefaultCustom.docRequest]

/-! ## C13: the search on a negative step (alitecs, power floor 1) -/

theorem AlitecsRn2483Adr.search_of_nonpos (max_tx_power_index max_dr : Int) :
    ∀ (nb_step tx_power_index dr : Int), nb_step ≤ 0 → 1 ≤ tx_power_index →
      get_ideal_tx_power_index_and_dr nb_step tx_power_index dr max_tx_power_index max_dr =
        (max (tx_power_index + nb_step) 1,
          dr - (-nb_step - (tx_power_index - max (tx_power_index + nb_step) 1))) := by
  intro nb_step tx_power_index dr
  induction nb_step, tx_power_index, dr, max_tx_power_index, max_dr using
    get_ideal_tx_power_index_and_dr.induct with
  | case1 tx dr mtx mdr =>
    intro _ h; rw [get_ideal_tx_power_index_and_dr]
    simp only [if_true, Prod.mk.injEq]
    constructor <;> omega
  | case2 n tx dr mtx mdr h0 hpos hlt ih => intro h; omega
  | case3 n tx dr mtx mdr h0 hpos hlt htx ih => intro h; omega
  | case4 n tx dr mtx mdr h0 hpos hlt htx ih => intro h; omega
  | case5 n tx dr mtx mdr h0 hpos htx ih =>
    intro _ h; rw [get_ideal_tx_power_index_and_dr]
    simp only [h0, hpos, htx, if_true, if_false]
    rw [ih (by omega) (by omega)]
    simp only [Prod.mk.injEq]
    constructor <;> omega
  | case6 n dr mtx mdr h0 hpos htx ih =>
    intro _ h; rw [get_ideal_tx_power_index_and_dr]
    simp only [h0, hpos, htx, if_true, if_false]
    rw [ih (by omega) (by omega)]
    simp only [Prod.mk.injEq]
    constructor <;> omega
  | case7 n tx dr mtx mdr h0 hpos htx h1 ih => intro _ h; omega

/-- C13: in `alitecs-rn2483-adr.js`, on a step `n < 0` with
`tx_power_index ≥ 1`, the search returns
`tx_power_index' = max(tx_power_index - |n|, 1)` and
`dr' = dr - (|n| - (tx_power_index - tx_power_index'))`. -/
theorem alitecs_search_negative_step
    (n tx_power_index dr max_tx_power_index max_dr : Int)
    (hn : n < 0) (htx : 1 ≤ tx_power_index) :
    AlitecsRn2483Adr.get_ideal_tx_power_index_and_dr n tx_power_index dr max_tx_power_index
        max_dr =
      (max (tx_power_index - |n|) 1,
        dr - (|n| - (tx_power_index - max (tx_power_index - |n|) 1))) := by
  rw [AlitecsRn2483Adr.search_of_nonpos _ _ _ _ _ (le_of_lt hn) htx, abs_of_neg hn]
  simp only [sub_neg_eq_add]

/-- C13 at `step = -3`, `tx_power_index = 2`, `dr = 4`: the power index goes
to 1 and `dr` is lowered by 2. -/
theorem alitecs_search_negative_step_witness :
    AlitecsRn2483Adr.get_ideal_tx_power_index_and_dr (-3) 2 4 15 5 = (1, 2) := by
  have h := alitecs_search_negative_step (-3) 2 4 15 5 (by decide) (by decide)
  have habs : |(-3 : Int)| = 3 := by decide
  rw [habs] at h
  simpa using h

/-! ## C14: the search on a negative step (default-custom, power floor 0) -/

theorem DefaultCustom.getIdealTxPowerIndexAndDR_of_nonpos :
    ∀ (nStep : Int) (req : AdrRequest), nStep ≤ 0 → 0 ≤ req.txPowerIndex →
      (getIdealTxPowerIndexAndDR nStep req).1 =
        { txPowerIndex := max (req.txPowerIndex + nStep) 0, dr := req.dr } := by
  intro nStep req
  induction nStep, req using getIdealTxPowerIndexAndDR.induct with
  | case1 req =>
    intro _ h; rw [getIdealTxPowerIndexAndDR]
    simp only [if_true, IdealValues.mk.injEq, and_true]
    omega
  | case2 n req h0 hpos hlt ih => intro h; omega
  | case3 n req h0 hpos hlt htx ih => intro h; omega
  | case4 n req h0 hpos hlt htx ih => intro h; omega
  | case5 n req h0 hpos htx ih =>
    intro _ h; rw [getIdealTxPowerIndexAndDR]
    simp only [h0, hpos, htx, if_true, if_false]
    rw [ih (by omega) (by show 0 ≤ req.txPowerIndex - 1; omega)]
    simp only [IdealValues.mk.injEq, and_true]
    omega
  | case6 n req h0 hpos htx ih =>
    intro _ h; rw [getIdealTxPowerIndexAndDR]
    simp only [h0, hpos, htx, if_true, if_false]
    rw [ih (by omega) h]
    simp only [IdealValues.mk.injEq, and_true]
    omega

/-- C14 as stated fails: on `step = -3` with `txPowerIndex = 1` and `dr = 3`
the search of `default-custom.js` returns `txPowerIndex = 0` and `dr = 3`; the
claimed `dr' = dr - (|n| - (txPowerIndex - txPowerIndex'))` is 1. -/
theorem default_custom_search_keeps_dr :
    DefaultCustom.searchDownRequest.txPowerIndex = 1 ∧
      DefaultCustom.searchDownRequest.dr = 3 ∧
      (DefaultCustom.getIdealTxPowerIndexAndDR (-3) DefaultCustom.searchDownRequest).1 =
        { txPowerIndex := 0, dr := 3 } ∧
      (DefaultCustom.getIdealTxPowerIndexAndDR (-3) DefaultCustom.searchDownRequest).1.dr ≠
        DefaultCustom.searchDownRequest.dr - (|(-3 : Int)| -
          (DefaultCustom.searchDownRequest.txPowerIndex -
            max (DefaultCustom.searchDownRequest.txPowerIndex - |(-3 : Int)|) 0)) := by
  have hres : (DefaultCustom.getIdealTxPowerIndexAndDR (-3) DefaultCustom.searchDownRequest).1 =
      { txPowerIndex := 0, dr := 3 } := by
    simp [DefaultCustom.getIdealTxPowerIndexAndDR, DefaultCustom.searchDownRequest,
      DefaultCustom.docRequest]
  refine ⟨rfl, rfl, hres, ?_⟩
  rw [hres]
  decide

/-- C14, amended: in `default-custom.js`, on a step `n < 0` with
`txPowerIndex ≥ 0`, each unit of step decrements `txPowerIndex` while it is
above 0 and is consumed without effect at the floor: the search returns
`txPowerIndex' = max(txPowerIndex - |n|, 0)` and `dr' = dr`. -/
theorem default_custom_search_negative_step
    (n : Int) (req : DefaultCustom.AdrRequest) (hn : n < 0) (htx : 0 ≤ req.txPowerIndex) :
    (DefaultCustom.getIdealTxPowerIndexAndDR n req).1 =
      { txPowerIndex := max (req.txPowerIndex - |n|) 0, dr := req.dr } := by
  rw [DefaultCustom.getIdealTxPowerIndexAndDR_of_nonpos _ _ (le_of_lt hn) htx, abs_of_neg hn]
  simp only [sub_neg_eq_add]

/-- C14, amended, at `step = -3`, `txPowerIndex = 1`, `dr = 3`. -/
theorem default_custom_search_negative_step_witness :
    (DefaultCustom.getIdealTxPowerIndexAndDR (-3) DefaultCustom.searchDownRequest).1 =
      { txPowerIndex := 0, dr := 3 } := by
  have h := default_custom_search_negative_step (-3) DefaultCustom.searchDownRequest
    (by decide) (by decide)
  have habs : |(-3 : Int)| = 3 := by decide
  rw [habs] at h
  simpa [DefaultCustom.searchDownRequest, DefaultCustom.docRequest] using h

/-! ## C15: the region data-rate resolver -/

theorem foldl_max_ge_init (l : List Nat) :
    ∀ a : Nat, a ≤ l.foldl (fun max dr => Nat.max max dr) a := by
  induction l with
  | nil => intro a; exact le_refl a
  | cons x xs ih =>
    intro a
    rw [List.foldl_cons]
    exact le_trans (Nat.le_max_left a x) (ih _)

theorem foldl_max_ge_mem (l : List Nat) :
    ∀ a x : Nat, x ∈ l → x ≤ l.foldl (fun max dr => Nat.max max dr) a := by
  induction l with
  | nil => intro a x hx; simp at hx
  | cons y ys ih =>
    intro a x hx
    rw [List.foldl_cons]
    rcases List.mem_cons.mp hx with h | h
    · rw [h]
      exact le_trans (Nat.le_max_right a y) (foldl_max_ge_init ys _)
    · exact ih _ x h

theorem foldl_max_mem_or_init (l : List Nat) :
    ∀ a : Nat, l.foldl (fun max dr => Nat.max max dr) a ∈ l ∨
      l.foldl (fun max dr => Nat.max max dr) a = a := by
  induction l with
  | nil => intro a; right; rfl
  | cons y ys ih =>
    intro a
    rw [List.foldl_cons]
    rcases ih (Nat.max a y) with h | h
    · left; exact List.mem_cons_of_mem _ h
    · rw [h]
      rcases Nat.le_total a y with hay | hya
      · left
        have e : Nat.max a y = y := max_eq_right hay
        rw [e]
        exact List.mem_cons_self _ _
      · right
        exact max_eq_left hya

/-- The filter of `handle` (lines 30-36) keeps exactly the LoRa 125 kHz data
rates. -/
theorem AlitecsRn2483Adr.mem_lora125_filter (region_conf : RegionConf) (dr : Nat) :
    dr ∈ region_conf.get_enabled_uplink_data_rates.filter (fun dr =>
        let dataRate := region_conf.get_data_rate dr
        if dataRate.modulation = "Lora" then decide (dataRate.bandwidth = 125000) else false) ↔
      dr ∈ region_conf.get_enabled_uplink_data_rates ∧ IsLora125 region_conf dr := by
  rw [List.mem_filter]
  unfold IsLora125
  by_cases hm : (region_conf.get_data_rate dr).modulation = "Lora"
  · simp [hm]
  · simp [hm]

/-- C15: `max_lora_dr` is the greatest enabled uplink data rate that is LoRa
at 125 kHz, or 0 when no enabled data rate qualifies; the ceiling `handle`
uses for the DR clamp and the search is `max_lora_dr` when
`req.max_dr > max_lora_dr` and `req.max_dr` otherwise, which is
`min(req.max_dr, max_lora_dr)`. -/
theorem region_resolver_max_lora_dr
    (region : AlitecsRn2483Adr.Region) (req : AlitecsRn2483Adr.AdrRequest)
    (region_conf : AlitecsRn2483Adr.RegionConf)
    (hadr : req.adr = true) (hreg : region req.region_config_id = some region_conf) :
    (∀ dr ∈ region_conf.get_enabled_uplink_data_rates,
        AlitecsRn2483Adr.IsLora125 region_conf dr →
          dr ≤ AlitecsRn2483Adr.max_lora_dr region_conf) ∧
      ((∃ dr ∈ region_conf.get_enabled_uplink_data_rates,
          AlitecsRn2483Adr.IsLora125 region_conf dr) →
        AlitecsRn2483Adr.max_lora_dr region_conf ∈ region_conf.get_enabled_uplink_data_rates ∧
          AlitecsRn2483Adr.IsLora125 region_conf (AlitecsRn2483Adr.max_lora_dr region_conf)) ∧
      ((¬ ∃ dr ∈ region_conf.get_enabled_uplink_data_rates,
          AlitecsRn2483Adr.IsLora125 region_conf dr) →
        AlitecsRn2483Adr.max_lora_dr region_conf = 0) ∧
      AlitecsRn2483Adr.handle region req =
        some (AlitecsRn2483Adr.responseUnderCeiling req
          (if req.max_dr > (AlitecsRn2483Adr.max_lora_dr region_conf : Int)
            then (AlitecsRn2483Adr.max_lora_dr region_conf : Int) else req.max_dr)) ∧
      (if req.max_dr > (AlitecsRn2483Adr.max_lora_dr region_conf : Int)
          then (AlitecsRn2483Adr.max_lora_dr region_conf : Int) else req.max_dr) =
        min req.max_dr (AlitecsRn2483Adr.max_lora_dr region_conf : Int) := by
  have hmin : (if req.max_dr > (AlitecsRn2483Adr.max_lora_dr region_conf : Int)
      then (AlitecsRn2483Adr.max_lora_dr region_conf : Int) else req.max_dr)
      = min req.max_dr (AlitecsRn2483Adr.max_lora_dr region_conf : Int) := by
    split_ifs with h
    · exact (min_eq_right (le_of_lt h)).symm
    · exact (min_eq_left (not_lt.mp h)).symm
  refine ⟨?_, ?_, ?_, ?_, hmin⟩
  · intro dr hdr hq
    exact foldl_max_ge_mem _ 0 dr
      ((AlitecsRn2483Adr.mem_lora125_filter region_conf dr).mpr ⟨hdr, hq⟩)
  · rintro ⟨dr, hdr, hq⟩
    have hmem := (AlitecsRn2483Adr.mem_lora125_filter region_conf dr).mpr ⟨hdr, hq⟩
    rcases foldl_max_mem_or_init
      (region_conf.get_enabled_uplink_data_rates.filter (fun dr =>
        let dataRate := region_conf.get_data_rate dr
        if dataRate.modulation = "Lora" then decide (dataRate.bandwidth = 125000) else false))
      0 with h | h
    · exact (AlitecsRn2483Adr.mem_lora125_filter region_conf _).mp h
    · have hle : dr ≤ 0 := by
        have := foldl_max_ge_mem _ 0 dr hmem
        rw [h] at this
        exact this
      have hdr0 : dr = 0 := Nat.le_zero.mp hle
      have hz : AlitecsRn2483Adr.max_lora_dr region_conf = 0 := h
      rw [hz, ← hdr0]
      exact ⟨hdr, hq⟩
  · intro hnone
    rcases foldl_max_mem_or_init
      (region_conf.get_enabled_uplink_data_rates.filter (fun dr =>
        let dataRate := region_conf.get_data_rate dr
        if dataRate.modulation = "Lora" then decide (dataRate.bandwidth = 125000) else false))
      0 with h | h
    · exact absurd ⟨_, (AlitecsRn2483Adr.mem_lora125_filter region_conf _).mp h⟩ hnone
    · exact h
  · rw [hmin]
    exact AlitecsRn2483Adr.handle_eq_responseUnderCeiling region req region_conf hadr hreg

/-- C15 at the doc-comment request in a region whose enabled data rates are
0..7, of which 0..5 are LoRa at 125 kHz. -/
theorem region_resolver_max_lora_dr_witness :
    (∀ dr ∈ AlitecsRn2483Adr.eu868.get_enabled_uplink_data_rates,
        AlitecsRn2483Adr.IsLora125 AlitecsRn2483Adr.eu868 dr →
          dr ≤ AlitecsRn2483Adr.max_lora_dr AlitecsRn2483Adr.eu868) ∧
      AlitecsRn2483Adr.handle AlitecsRn2483Adr.regions AlitecsRn2483Adr.docRequest =
        some (AlitecsRn2483Adr.responseUnderCeiling AlitecsRn2483Adr.docRequest
          (if AlitecsRn2483Adr.docRequest.max_dr >
              (AlitecsRn2483Adr.max_lora_dr AlitecsRn2483Adr.eu868 : Int)
            then (AlitecsRn2483Adr.max_lora_dr AlitecsRn2483Adr.eu868 : Int)
            else AlitecsRn2483Adr.docRequest.max_dr)) :=
  ⟨(region_resolver_max_lora_dr AlitecsRn2483Adr.regions AlitecsRn2483Adr.docRequest
      AlitecsRn2483Adr.eu868 rfl rfl).1,
    (region_resolver_max_lora_dr AlitecsRn2483Adr.regions AlitecsRn2483Adr.docRequest
      AlitecsRn2483Adr.eu868 rfl rfl).2.2.2.1⟩

/-! ## C16: `handle` end to end on a step that is not negative (default-custom) -/

theorem DefaultCustom.getNbTrans_of_short_history (req : AdrRequest)
    (hhist : req.uplinkHistory.length < 20) :
    getNbTrans req.nbTrans (getPacketLossPercentage req) =
      ([1, 1, 2] : List Int).getD (specClampNbTrans req.nbTrans - 1).toNat 0 := by
  have hloss : getPacketLossPercentage req = 0 := by
    simp only [getPacketLossPercentage, requiredHistoryCount, hhist, if_true]
  rw [hloss, DefaultCustom.getNbTrans_eq_spec]
  simp [specNbTrans, specLossBucket, specNbTransTable]

theorem DefaultCustom.handle_of_nonneg_step (req : AdrRequest) (c : Int)
    (hadr : req.adr = true) (hceil : maxDrOrMaxRr req = some c) (hle : req.dr ≤ c)
    (hhist : req.uplinkHistory.length < 20) (hn : 0 ≤ nStepOf req) :
    (handle req).1 =
      { nbTrans := ([1, 1, 2] : List Int).getD (specClampNbTrans req.nbTrans - 1).toNat 0,
        dr := min (req.dr + nStepOf req) c,
        txPowerIndex := req.txPowerIndex +
          min (nStepOf req - (min (req.dr + nStepOf req) c - req.dr))
            (max (req.maxTxPowerIndex - req.txPowerIndex) 0) } := by
  rw [DefaultCustom.handle_of_adr req hadr, if_neg (by omega),
    DefaultCustom.getIdealTxPowerIndexAndDR_of_nonneg c _ _ hn hceil hle,
    DefaultCustom.getNbTrans_of_short_history req hhist]

/-- C16 as stated fails: for the doc-comment request with `dr = 0`,
`maxDr = 0` and a field `maxRr = 5` (ADR enabled, one history entry, step 5)
`handle` of `default-custom.js` takes `maxRr` as the ceiling and answers
`{dr: 5, txPowerIndex: 0, nbTrans: 1}`; the claimed `min(dr + n, maxDr)` is 0
and the claimed `txPowerIndex` is 5. -/
theorem default_custom_handle_ceiling_is_maxRr :
    DefaultCustom.maxRrRequest.adr = true ∧
      DefaultCustom.maxRrRequest.dr ≤ DefaultCustom.maxRrRequest.maxDr ∧
      DefaultCustom.maxRrRequest.uplinkHistory.length < 20 ∧
      DefaultCustom.nStepOf DefaultCustom.maxRrRequest = 5 ∧
      (DefaultCustom.handle DefaultCustom.maxRrRequest).1 =
        { dr := 5, txPowerIndex := 0, nbTrans := 1 } ∧
      (DefaultCustom.handle DefaultCustom.maxRrRequest).1.dr ≠
        min (DefaultCustom.maxRrRequest.dr + DefaultCustom.nStepOf DefaultCustom.maxRrRequest)
          DefaultCustom.maxRrRequest.maxDr := by
  have hstep := (DefaultCustom.nStepOf_docRequest_like DefaultCustom.maxRrRequest rfl rfl rfl).2
  have hresp : (DefaultCustom.handle DefaultCustom.maxRrRequest).1 =
      { dr := 5, txPowerIndex := 0, nbTrans := 1 } := by
    rw [DefaultCustom.handle_of_nonneg_step DefaultCustom.maxRrRequest 5 rfl rfl (by decide)
      (by decide) (by rw [hstep]; decide), hstep]
    simp [DefaultCustom.maxRrRequest, DefaultCustom.docRequest, specClampNbTrans]
  refine ⟨rfl, by decide, by decide, hstep, hresp, ?_⟩
  rw [hresp, hstep]
  decide

/-- C16, amended: in `default-custom.js`, for a request with ADR enabled, `dr`
at most the ceiling `c` (the value of `req.maxDr || req.maxRr`: `maxDr` when it
is not zero, `maxRr` when `maxDr` is zero), a history of fewer than 20 entries
and a computed step `n ≥ 0`, the response has
`nbTrans = [1,1,2][clamp(nbTrans,1,3) - 1]`, `dr = min(dr + n, c)` and
`txPowerIndex = txPowerIndex + min(n - (dr' - dr), max(maxTxPowerIndex - txPowerIndex, 0))`;
on the request of the doc comment the loss is 0, the margin 15, the step 5 and
the response `{dr: 5, txPowerIndex: 1, nbTrans: 1}`. -/
theorem default_custom_handle_end_to_end_under_ceiling (req : DefaultCustom.AdrRequest)
    (c : Int) (hadr : req.adr = true) (hceil : DefaultCustom.maxDrOrMaxRr req = some c)
    (hle : req.dr ≤ c) (hhist : req.uplinkHistory.length < 20)
    (hn : 0 ≤ DefaultCustom.nStepOf req) :
    (DefaultCustom.handle req).1 =
        { nbTrans := ([1, 1, 2] : List Int).getD (specClampNbTrans req.nbTrans - 1).toNat 0,
          dr := min (req.dr + DefaultCustom.nStepOf req) c,
          txPowerIndex := req.txPowerIndex +
            min (DefaultCustom.nStepOf req -
                (min (req.dr + DefaultCustom.nStepOf req) c - req.dr))
              (max (req.maxTxPowerIndex - req.txPowerIndex) 0) } ∧
      (req.maxDr ≠ 0 → c = req.maxDr) ∧ (req.maxDr = 0 → req.maxRr = some c) ∧
      DefaultCustom.getPacketLossPercentage DefaultCustom.docRequest = 0 ∧
      DefaultCustom.snrMarginOf DefaultCustom.docRequest = 15 ∧
      DefaultCustom.nStepOf DefaultCustom.docRequest = 5 ∧
      (DefaultCustom.handle DefaultCustom.docRequest).1 =
        { dr := 5, txPowerIndex := 1, nbTrans := 1 } := by
  have hdoc := DefaultCustom.nStepOf_docRequest_like DefaultCustom.docRequest rfl rfl rfl
  refine ⟨DefaultCustom.handle_of_nonneg_step req c hadr hceil hle hhist hn,
    (DefaultCustom.maxDrOrMaxRr_eq_some req c hceil).1,
    (DefaultCustom.maxDrOrMaxRr_eq_some req c hceil).2, ?_, hdoc.1, hdoc.2, ?_⟩
  · simp [DefaultCustom.getPacketLossPercentage, DefaultCustom.requiredHistoryCount,
      DefaultCustom.docRequest]
  · rw [DefaultCustom.handle_of_nonneg_step DefaultCustom.docRequest 5 rfl rfl (by decide)
      (by decide) (by rw [hdoc.2]; decide), hdoc.2]
    simp [DefaultCustom.docRequest, specClampNbTrans]

/-- C16, amended, at the request of the doc comment (ceiling `maxDr = 5`): the
general form evaluates to `{dr: 5, txPowerIndex: 1, nbTrans: 1}`. -/
theorem default_custom_handle_end_to_end_under_ceiling_witness :
    (DefaultCustom.handle DefaultCustom.docRequest).1 =
      { dr := 5, txPowerIndex := 1, nbTrans := 1 } := by
  have hstep := (DefaultCustom.nStepOf_docRequest_like DefaultCustom.docRequest rfl rfl rfl).2
  have h := (default_custom_handle_end_to_end_under_ceiling DefaultCustom.docRequest 5 rfl rfl
    (by decide) (by decide) (by rw [hstep]; decide)).1
  rw [hstep] at h
  rw [h]
  simp [DefaultCustom.docRequest, specClampNbTrans]

/-! ## C17: the deferral test of the alitecs file -/

theorem AlitecsRn2483Adr.n_step_of_weak (req : AdrRequest)
    (hsnr : get_max_snr req = -20)
    (hr : req.required_snr_for_dr = -17.5) (hi : req.installation_margin = 10) :
    n_step_of req = -4 := by
  have hm : snr_margin_of req = -25 / 2 := by
    simp only [snr_margin_of, hsnr, hr, hi]
    exact binary64_margin_of_quarters _ _ _ _ (-80) (-70) 40 (by norm_num) (by norm_num)
      (by norm_num) (by norm_num) (by norm_num) (by norm_num) (by norm_num)
  unfold n_step_of
  rw [hm]
  exact Math_trunc_binary64_of_quarter_margin (-25 / 2) (-50) (-4) (by norm_num) (by norm_num)
    (Math_trunc_eq_of_nonpos (by norm_num) (by norm_num) (by norm_num))

theorem AlitecsRn2483Adr.map_f_cnt_of (mk : Int → UplinkHistory) (hmk : ∀ c, (mk c).f_cnt = c)
    (l : List Int) : (l.map mk).map (fun h => h.f_cnt) = l := by
  induction l with
  | nil => rfl
  | cons x xs ih => rw [List.map_cons, List.map_cons, ih, hmk]

/-- The loss estimate of a history of at least 20 entries whose frame
counters are `f`. -/
theorem AlitecsRn2483Adr.loss_of_long_history (req : AdrRequest) (f : List Int)
    (hf : req.uplink_history.map (fun h => h.f_cnt) = f) (hlen : 20 ≤ f.length) :
    get_packet_loss_percentage req = (specLostPackets f : ℚ) / (f.length : ℚ) * 100 := by
  have hl : req.uplink_history.length = f.length := by rw [← hf, List.length_map]
  simp only [get_packet_loss_percentage, required_history_count, loop_lost_packets, hf, hl]
  rw [if_neg (by omega)]

theorem AlitecsRn2483Adr.longHistoryRequest_max_snr : get_max_snr longHistoryRequest = -20 := by
  norm_num [get_max_snr, longHistoryRequest, counters21, weakUplinkAt2]

theorem AlitecsRn2483Adr.longHistoryRequest_count : get_history_count longHistoryRequest = 21 := by
  simp [get_history_count, longHistoryRequest, counters21, weakUplinkAt2]

theorem AlitecsRn2483Adr.longHistoryRequest_loss :
    get_packet_loss_percentage longHistoryRequest = 0 := by
  rw [AlitecsRn2483Adr.loss_of_long_history longHistoryRequest counters21
    (AlitecsRn2483Adr.map_f_cnt_of weakUplinkAt2 (fun _ => rfl) counters21) (by decide),
    specLostPackets_telescope _ (by decide)]
  norm_num [counters21]

/-- C17, the code at the failing input: with a negative step (-4) and 21
history entries at the request's `tx_power_index` (2), `handle` of
`alitecs-rn2483-adr.js` returns early with `dr = 3`, `tx_power_index = 2`;
the parameter search on these values gives `tx_power_index = 1`, `dr = 0`.
The test is `get_history_count(req) !== 20`, not `< 20`. -/
theorem alitecs_defers_on_21_entries :
    AlitecsRn2483Adr.longHistoryRequest.adr = true ∧
      AlitecsRn2483Adr.n_step_of AlitecsRn2483Adr.longHistoryRequest = -4 ∧
      AlitecsRn2483Adr.get_history_count AlitecsRn2483Adr.longHistoryRequest = 21 ∧
      AlitecsRn2483Adr.handle AlitecsRn2483Adr.regions AlitecsRn2483Adr.longHistoryRequest =
        some { dr := 3, tx_power_index := 2, nb_trans := 1 } ∧
      AlitecsRn2483Adr.get_ideal_tx_power_index_and_dr (-4) 2 3 15 5 = (1, 0) := by
  have hstep := AlitecsRn2483Adr.n_step_of_weak AlitecsRn2483Adr.longHistoryRequest
    AlitecsRn2483Adr.longHistoryRequest_max_snr rfl rfl
  have hcount := AlitecsRn2483Adr.longHistoryRequest_count
  have hloss := AlitecsRn2483Adr.longHistoryRequest_loss
  have hsearch : AlitecsRn2483Adr.get_ideal_tx_power_index_and_dr (-4) 2 3 15 5 = (1, 0) := by
    rw [AlitecsRn2483Adr.search_of_nonpos _ _ _ _ _ (by decide) (by decide)]
    decide
  refine ⟨rfl, hstep, hcount, ?_, hsearch⟩
  rw [AlitecsRn2483Adr.handle_eq_responseUnderCeiling AlitecsRn2483Adr.regions
    AlitecsRn2483Adr.longHistoryRequest AlitecsRn2483Adr.eu868 rfl rfl]
  simp only [AlitecsRn2483Adr.responseUnderCeiling, hstep, hcount, hloss,
    AlitecsRn2483Adr.max_lora_dr_eu868, AlitecsRn2483Adr.required_history_count]
  simp [AlitecsRn2483Adr.longHistoryRequest, AlitecsRn2483Adr.docRequest,
    AlitecsRn2483Adr.get_nb_trans, AlitecsRn2483Adr.tableAt, AlitecsRn2483Adr.pkt_loss_table]

/-! ## C18: the search terminates after exactly `|n|` iterations -/

theorem stepCountWalk_of (n : Int) (count : Nat → Int) (h0 : count 0 = n)
    (hpos : ∀ k, 0 < count k → count (k + 1) = count k - 1)
    (hneg : ∀ k, count k < 0 → count (k + 1) = count k + 1) :
    StepCountWalk n count := by
  have hwalk : ∀ k, k ≤ n.natAbs →
      (0 ≤ n → count k = n - k) ∧ (n ≤ 0 → count k = n + k) := by
    intro k
    induction k with
    | zero => intro _; simp [h0]
    | succ k ih =>
      intro hk
      have ihk := ih (by omega)
      constructor
      · intro hn
        have hc := ihk.1 hn
        rw [hpos k (by omega), hc]
        push_cast
        ring
      · intro hn
        have hc := ihk.2 hn
        rw [hneg k (by omega), hc]
        push_cast
        ring
  refine ⟨hwalk, ?_, ?_⟩
  · intro k hk
    have h := hwalk k (le_of_lt hk)
    rcases le_total 0 n with hn | hn
    · have := h.1 hn
      omega
    · have := h.2 hn
      omega
  · have h := hwalk n.natAbs (le_refl _)
    rcases le_total 0 n with hn | hn
    · have := h.1 hn
      omega
    · have := h.2 hn
      omega

theorem AlitecsRn2483Adr.search_unfold (max_tx_power_index max_dr : Int) (s : SearchState)
    (h : s.nb_step ≠ 0) :
    get_ideal_tx_power_index_and_dr s.nb_step s.tx_power_index s.dr max_tx_power_index max_dr =
      get_ideal_tx_power_index_and_dr (search_iteration max_tx_power_index max_dr s).nb_step
        (search_iteration max_tx_power_index max_dr s).tx_power_index
        (search_iteration max_tx_power_index max_dr s).dr max_tx_power_index max_dr := by
  conv_lhs => rw [get_ideal_tx_power_index_and_dr]
  unfold search_iteration
  simp only [h, if_false]
  split_ifs <;> rfl

theorem AlitecsRn2483Adr.search_eq_iterate (max_tx_power_index max_dr : Int) :
    ∀ (m : Nat) (s : SearchState), s.nb_step.natAbs = m →
      get_ideal_tx_power_index_and_dr s.nb_step s.tx_power_index s.dr max_tx_power_index
          max_dr =
        (((search_iteration max_tx_power_index max_dr)^[m] s).tx_power_index,
          ((search_iteration max_tx_power_index max_dr)^[m] s).dr) := by
  intro m
  induction m with
  | zero =>
    intro s hs
    have h0 : s.nb_step = 0 := by omega
    rw [h0, get_ideal_tx_power_index_and_dr]
    simp
  | succ m ih =>
    intro s hs
    have hne : s.nb_step ≠ 0 := by omega
    rw [AlitecsRn2483Adr.search_unfold _ _ s hne, Function.iterate_succ_apply]
    apply ih
    unfold search_iteration
    split_ifs <;> simp only <;> omega

theorem AlitecsRn2483Adr.search_iteration_nb_step (max_tx_power_index max_dr : Int)
    (s : SearchState) :
    (0 < s.nb_step → (search_iteration max_tx_power_index max_dr s).nb_step = s.nb_step - 1) ∧
      (s.nb_step < 0 →
        (search_iteration max_tx_power_index max_dr s).nb_step = s.nb_step + 1) := by
  unfold search_iteration
  constructor <;> intro h <;> split_ifs <;> first | rfl | omega

theorem DefaultCustom.getIdealTxPowerIndexAndDR_unfold (s : Int × AdrRequest) (h : s.1 ≠ 0) :
    getIdealTxPowerIndexAndDR s.1 s.2 =
      getIdealTxPowerIndexAndDR (searchIteration s).1 (searchIteration s).2 := by
  conv_lhs => rw [getIdealTxPowerIndexAndDR]
  unfold searchIteration
  simp only [h, if_false]
  split_ifs <;> rfl

theorem DefaultCustom.searchIteration_nStep (s : Int × AdrRequest) :
    (0 < s.1 → (searchIteration s).1 = s.1 - 1) ∧ (s.1 < 0 → (searchIteration s).1 = s.1 + 1) := by
  unfold searchIteration
  constructor <;> intro h <;> split_ifs <;> first | rfl | omega

theorem DefaultCustom.getIdealTxPowerIndexAndDR_eq_iterate :
    ∀ (m : Nat) (s : Int × AdrRequest), s.1.natAbs = m →
      getIdealTxPowerIndexAndDR s.1 s.2 =
        ({ txPowerIndex := (searchIteration^[m] s).2.txPowerIndex,
           dr := (searchIteration^[m] s).2.dr }, (searchIteration^[m] s).2) := by
  intro m
  induction m with
  | zero =>
    intro s hs
    have h0 : s.1 = 0 := by omega
    rw [h0, getIdealTxPowerIndexAndDR]
    simp
  | succ m ih =>
    intro s hs
    have hne : s.1 ≠ 0 := by omega
    rw [DefaultCustom.getIdealTxPowerIndexAndDR_unfold s hne, Function.iterate_succ_apply]
    apply ih
    have h := DefaultCustom.searchIteration_nStep s
    rcases lt_or_gt_of_ne hne with hlt | hgt
    · have := h.2 hlt
      omega
    · have := h.1 hgt
      omega

/-- C18: in both files the recursive search is a total function that, started
on the step count `n`, returns the `txPowerIndex` and `dr` reached after
exactly `|n|` iterations of its body; the remaining step count moves one unit
toward zero at each iteration without changing sign, is not 0 before the
`|n|`-th and is 0 after it; on `n = 0` the inputs are returned unchanged. -/
theorem search_terminates_after_abs_n_iterations
    (n tx_power_index dr max_tx_power_index max_dr : Int) (req : DefaultCustom.AdrRequest) :
    StepCountWalk n (fun k =>
        ((AlitecsRn2483Adr.search_iteration max_tx_power_index max_dr)^[k]
          { nb_step := n, tx_power_index := tx_power_index, dr := dr }).nb_step) ∧
      AlitecsRn2483Adr.get_ideal_tx_power_index_and_dr n tx_power_index dr max_tx_power_index
          max_dr =
        (((AlitecsRn2483Adr.search_iteration max_tx_power_index max_dr)^[n.natAbs]
            { nb_step := n, tx_power_index := tx_power_index, dr := dr }).tx_power_index,
          ((AlitecsRn2483Adr.search_iteration max_tx_power_index max_dr)^[n.natAbs]
            { nb_step := n, tx_power_index := tx_power_index, dr := dr }).dr) ∧
      AlitecsRn2483Adr.get_ideal_tx_power_index_and_dr 0 tx_power_index dr max_tx_power_index
          max_dr = (tx_power_index, dr) ∧
      StepCountWalk n (fun k => (DefaultCustom.searchIteration^[k] (n, req)).1) ∧
      DefaultCustom.getIdealTxPowerIndexAndDR n req =
        ({ txPowerIndex := (DefaultCustom.searchIteration^[n.natAbs] (n, req)).2.txPowerIndex,
           dr := (DefaultCustom.searchIteration^[n.natAbs] (n, req)).2.dr },
          (DefaultCustom.searchIteration^[n.natAbs] (n, req)).2) ∧
      DefaultCustom.getIdealTxPowerIndexAndDR 0 req =
        ({ txPowerIndex := req.txPowerIndex, dr := req.dr }, req) := by
  refine ⟨?_, ?_, ?_, ?_, ?_, ?_⟩
  · apply stepCountWalk_of
    · rfl
    · intro k hk
      simp only [Function.iterate_succ_apply']
      exact (AlitecsRn2483Adr.search_iteration_nb_step _ _ _).1 hk
    · intro k hk
      simp only [Function.iterate_succ_apply']
      exact (AlitecsRn2483Adr.search_iteration_nb_step _ _ _).2 hk
  · exact AlitecsRn2483Adr.search_eq_iterate max_tx_power_index max_dr n.natAbs
      { nb_step := n, tx_power_index := tx_power_index, dr := dr } rfl
  · rw [AlitecsRn2483Adr.get_ideal_tx_power_index_and_dr]
    simp
  · apply stepCountWalk_of
    · rfl
    · intro k hk
      simp only [Function.iterate_succ_apply']
      exact (DefaultCustom.searchIteration_nStep _).1 hk
    · intro k hk
      simp only [Function.iterate_succ_apply']
      exact (DefaultCustom.searchIteration_nStep _).2 hk
  · exact DefaultCustom.getIdealTxPowerIndexAndDR_eq_iterate n.natAbs (n, req) rfl
  · rw [DefaultCustom.getIdealTxPowerIndexAndDR]
    simp

/-- C18 at `n = -3`, `tx_power_index = 2`, `dr = 4`: three iterations, the
step count going -3, -2, -1, 0. -/
theorem search_terminates_after_abs_n_iterations_witness :
    ((AlitecsRn2483Adr.search_iteration 15 5)^[1]
        { nb_step := -3, tx_power_index := 2, dr := 4 }).nb_step = -2 ∧
      ((AlitecsRn2483Adr.search_iteration 15 5)^[2]
        { nb_step := -3, tx_power_index := 2, dr := 4 }).nb_step = -1 ∧
      ((AlitecsRn2483Adr.search_iteration 15 5)^[3]
        { nb_step := -3, tx_power_index := 2, dr := 4 }).nb_step = 0 := by
  have h := (search_terminates_after_abs_n_iterations (-3) 2 4 15 5 DefaultCustom.docRequest).1
  have h1 := (h.1 1 (by decide)).2 (by decide)
  have h2 := (h.1 2 (by decide)).2 (by decide)
  exact ⟨h1, h2, h.2.2⟩

/-! ## C19: the response `dr` can be negative (alitecs) -/

theorem AlitecsRn2483Adr.lowestDrRequest_max_snr : get_max_snr lowestDrRequest = -20 := by
  norm_num [get_max_snr, lowestDrRequest, counters20, weakUplinkAt1]

theorem AlitecsRn2483Adr.lowestDrRequest_count : get_history_count lowestDrRequest = 20 := by
  simp [get_history_count, lowestDrRequest, counters20, weakUplinkAt1]

theorem AlitecsRn2483Adr.lowestDrRequest_loss :
    get_packet_loss_percentage lowestDrRequest = 0 := by
  rw [AlitecsRn2483Adr.loss_of_long_history lowestDrRequest counters20
    (AlitecsRn2483Adr.map_f_cnt_of weakUplinkAt1 (fun _ => rfl) counters20) (by decide),
    specLostPackets_telescope _ (by decide)]
  norm_num [counters20]

/-- C19, the code at the failing input: for a request with `dr = 0`,
`tx_power_index = 1`, `max_dr = 5`, `max_tx_power_index = 15` and 20 weak
uplinks at `tx_power_index = 1` (step -4) `handle` of `alitecs-rn2483-adr.js`
answers `dr = -4`: at the power floor every remaining step lowers `dr`, and
nothing stops it at 0. -/
theorem alitecs_response_dr_negative :
    AlitecsRn2483Adr.lowestDrRequest.adr = true ∧
      0 ≤ AlitecsRn2483Adr.lowestDrRequest.dr ∧
      0 ≤ AlitecsRn2483Adr.lowestDrRequest.tx_power_index ∧
      0 ≤ AlitecsRn2483Adr.lowestDrRequest.max_dr ∧
      0 ≤ AlitecsRn2483Adr.lowestDrRequest.max_tx_power_index ∧
      AlitecsRn2483Adr.n_step_of AlitecsRn2483Adr.lowestDrRequest = -4 ∧
      AlitecsRn2483Adr.get_history_count AlitecsRn2483Adr.lowestDrRequest = 20 ∧
      AlitecsRn2483Adr.handle AlitecsRn2483Adr.regions AlitecsRn2483Adr.lowestDrRequest =
        some { dr := -4, tx_power_index := 1, nb_trans := 1 } ∧
      ¬ (0 ≤ (-4 : Int)) := by
  have hstep := AlitecsRn2483Adr.n_step_of_weak AlitecsRn2483Adr.lowestDrRequest
    AlitecsRn2483Adr.lowestDrRequest_max_snr rfl rfl
  have hcount := AlitecsRn2483Adr.lowestDrRequest_count
  have hloss := AlitecsRn2483Adr.lowestDrRequest_loss
  have hsearch : AlitecsRn2483Adr.get_ideal_tx_power_index_and_dr (-4) 1 0 15 5 = (1, -4) := by
    rw [AlitecsRn2483Adr.search_of_nonpos _ _ _ _ _ (by decide) (by decide)]
    decide
  refine ⟨rfl, by decide, by decide, by decide, by decide, hstep, hcount, ?_, by decide⟩
  rw [AlitecsRn2483Adr.handle_eq_responseUnderCeiling AlitecsRn2483Adr.regions
    AlitecsRn2483Adr.lowestDrRequest AlitecsRn2483Adr.eu868 rfl rfl]
  simp only [AlitecsRn2483Adr.responseUnderCeiling, hstep, hcount, hloss,
    AlitecsRn2483Adr.max_lora_dr_eu868, AlitecsRn2483Adr.required_history_count]
  simp [AlitecsRn2483Adr.lowestDrRequest, AlitecsRn2483Adr.docRequest, hsearch,
    AlitecsRn2483Adr.get_nb_trans, AlitecsRn2483Adr.tableAt, AlitecsRn2483Adr.pkt_loss_table]

/-! ## C20: the range of the power index -/

theorem DefaultCustom.search_txPowerIndex_nonneg :
    ∀ (nStep : Int) (req : AdrRequest), 0 ≤ req.txPowerIndex →
      0 ≤ (getIdealTxPowerIndexAndDR nStep req).1.txPowerIndex := by
  intro nStep req
  induction nStep, req using getIdealTxPowerIndexAndDR.induct with
  | case1 req => intro h; rw [getIdealTxPowerIndexAndDR]; simpa using h
  | case2 n req h0 hpos hlt ih =>
    intro h; rw [getIdealTxPowerIndexAndDR]; simp only [h0, hpos, hlt, if_true, if_false]
    exact ih h
  | case3 n req h0 hpos hlt htx ih =>
    intro h; rw [getIdealTxPowerIndexAndDR]; simp only [h0, hpos, hlt, htx, if_true, if_false]
    exact ih (by show 0 ≤ req.txPowerIndex + 1; omega)
  | case4 n req h0 hpos hlt htx ih =>
    intro h; rw [getIdealTxPowerIndexAndDR]; simp only [h0, hpos, hlt, htx, if_true, if_false]
    exact ih h
  | case5 n req h0 hpos htx ih =>
    intro h; rw [getIdealTxPowerIndexAndDR]; simp only [h0, hpos, htx, if_true, if_false]
    exact ih (by show 0 ≤ req.txPowerIndex - 1; omega)
  | case6 n req h0 hpos htx ih =>
    intro h; rw [getIdealTxPowerIndexAndDR]; simp only [h0, hpos, htx, if_true, if_false]
    exact ih h

theorem AlitecsRn2483Adr.search_tx_power_index_ge (max_tx_power_index max_dr floor : Int)
    (hfloor : floor = 0 ∨ floor = 1) :
    ∀ (nb_step tx_power_index dr : Int), floor ≤ tx_power_index →
      floor ≤ (get_ideal_tx_power_index_and_dr nb_step tx_power_index dr max_tx_power_index
        max_dr).1 := by
  intro nb_step tx_power_index dr
  induction nb_step, tx_power_index, dr, max_tx_power_index, max_dr using
    get_ideal_tx_power_index_and_dr.induct with
  | case1 => intro h; rw [get_ideal_tx_power_index_and_dr]; simpa using h
  | case2 n tx dr mtx mdr h0 hpos hlt ih =>
    intro h; rw [get_ideal_tx_power_index_and_dr]; simp only [h0, hpos, hlt, if_true, if_false]
    exact ih h
  | case3 n tx dr mtx mdr h0 hpos hlt htx ih =>
    intro h; rw [get_ideal_tx_power_index_and_dr]; simp only [h0, hpos, hlt, htx, if_true, if_false]
    exact ih (by omega)
  | case4 n tx dr mtx mdr h0 hpos hlt htx ih =>
    intro h; rw [get_ideal_tx_power_index_and_dr]; simp only [h0, hpos, hlt, htx, if_true, if_false]
    exact ih h
  | case5 n tx dr mtx mdr h0 hpos htx ih =>
    intro h; rw [get_ideal_tx_power_index_and_dr]; simp only [h0, hpos, htx, if_true, if_false]
    exact ih (by omega)
  | case6 n dr mtx mdr h0 hpos htx ih =>
    intro h; rw [get_ideal_tx_power_index_and_dr]; simp only [h0, hpos, htx, if_true, if_false]
    exact ih h
  | case7 n tx dr mtx mdr h0 hpos htx h1 ih =>
    intro h; rw [get_ideal_tx_power_index_and_dr]; simp only [h0, hpos, htx, h1, if_true, if_false]
    exact ih h

/-- C20: with ADR enabled and `0 ≤ txPowerIndex ≤ maxTxPowerIndex` in the
request, the response of `handle` has `0 ≤ txPowerIndex' ≤ maxTxPowerIndex` in
both files, whatever the step, the data rates and the history; in
`alitecs-rn2483-adr.js` (the region found) a request with
`tx_power_index ≥ 1` gets a response with `tx_power_index ≥ 1`. -/
theorem response_txPowerIndex_in_range
    (req : DefaultCustom.AdrRequest) (areq : AlitecsRn2483Adr.AdrRequest)
    (region : AlitecsRn2483Adr.Region) (region_conf : AlitecsRn2483Adr.RegionConf)
    (hadr : req.adr = true) (h0 : 0 ≤ req.txPowerIndex)
    (hmax : req.txPowerIndex ≤ req.maxTxPowerIndex)
    (haadr : areq.adr = true) (hreg : region areq.region_config_id = some region_conf)
    (ha0 : 0 ≤ areq.tx_power_index) (hamax : areq.tx_power_index ≤ areq.max_tx_power_index) :
    (0 ≤ (DefaultCustom.handle req).1.txPowerIndex ∧
        (DefaultCustom.handle req).1.txPowerIndex ≤ req.maxTxPowerIndex) ∧
      ∃ aresp, AlitecsRn2483Adr.handle region areq = some aresp ∧
        0 ≤ aresp.tx_power_index ∧ aresp.tx_power_index ≤ areq.max_tx_power_index ∧
        (1 ≤ areq.tx_power_index → 1 ≤ aresp.tx_power_index) := by
  constructor
  · rw [DefaultCustom.handle_of_adr req hadr]
    split_ifs
    · exact ⟨h0, hmax⟩
    · exact ⟨DefaultCustom.search_txPowerIndex_nonneg _ _ h0,
        DefaultCustom.search_txPowerIndex_le _ _ hmax⟩
  · refine ⟨_, AlitecsRn2483Adr.handle_eq_responseUnderCeiling region areq region_conf haadr hreg,
      ?_⟩
    simp only [AlitecsRn2483Adr.responseUnderCeiling]
    split_ifs <;>
      first
        | exact ⟨ha0, hamax, fun h => h⟩
        | exact ⟨AlitecsRn2483Adr.search_tx_power_index_ge _ _ 0 (Or.inl rfl) _ _ _ ha0,
            AlitecsRn2483Adr.search_tx_power_index_le _ _ _ _ _ hamax,
            fun h => AlitecsRn2483Adr.search_tx_power_index_ge _ _ 1 (Or.inr rfl) _ _ _ h⟩

/-- C20 at the doc-comment request of both files (`txPowerIndex = 0`) and, for
the last part, read with `tx_power_index = 1`. -/
theorem response_txPowerIndex_in_range_witness :
    (0 ≤ (DefaultCustom.handle DefaultCustom.docRequest).1.txPowerIndex ∧
        (DefaultCustom.handle DefaultCustom.docRequest).1.txPowerIndex ≤
          DefaultCustom.docRequest.maxTxPowerIndex) ∧
      ∃ aresp, AlitecsRn2483Adr.handle AlitecsRn2483Adr.regions
          AlitecsRn2483Adr.lowestDrRequest = some aresp ∧
        0 ≤ aresp.tx_power_index ∧
        aresp.tx_power_index ≤ AlitecsRn2483Adr.lowestDrRequest.max_tx_power_index ∧
        (1 ≤ AlitecsRn2483Adr.lowestDrRequest.tx_power_index → 1 ≤ aresp.tx_power_index) :=
  response_txPowerIndex_in_range DefaultCustom.docRequest AlitecsRn2483Adr.lowestDrRequest
    AlitecsRn2483Adr.regions AlitecsRn2483Adr.eu868 rfl (by decide) (by decide) rfl rfl
    (by decide) (by decide)
